import Mathlib

/-!
Shallow embedding of the endpoint-reconnaissance core of this repository:
the URL templaters (`extractEndpointPattern` of `UltimateDevToolsRecon`
and `UniversalEndpointRecon`), the credential extractors, the CDP capture
handlers of `CaptureEverythingRecon`, the network-interception handlers of
`UniversalEndpointRecon`, and the report-time token masking of
`FanvueAPIRecon`, together with proofs and refutations of the specified
properties.

Conventions of the embedding:
* JS strings are modelled as Lean `String`/`List Char` (all inputs of
  interest are ASCII, where JS UTF-16 units and Lean code points agree).
* JS objects and `Map`s are modelled as insertion-ordered association
  lists; `Map.set` on a fresh key appends, updates happen in place.
* JS `Set`s are modelled as insertion-ordered duplicate-free lists.
* Wall-clock timestamps (`new Date().toISOString()`, CDP `timestamp`)
  are omitted from the modelled state: they are clock effects, not data
  from the event.
* The `new URL(...)` parse and `JSON.parse` boundaries are modelled by
  events carrying the already-parsed structure; the catch-branches of the
  source are represented by `Option`/sum types on those fields.
-/

/-- ASCII decimal digit, the regex class \d (no unicode flag in the source). -/
def isDigitCh (c : Char) : Bool := decide ('0' ≤ c) && decide (c ≤ '9')

/-- Lowercase hexadecimal digit, the regex class [a-f0-9]. -/
def isHexLower (c : Char) : Bool := isDigitCh c || (decide ('a' ≤ c) && decide (c ≤ 'f'))

/-- Alphanumeric character, the regex class [a-zA-Z0-9]. -/
def isAlphaNum (c : Char) : Bool :=
  isDigitCh c || (decide ('a' ≤ c) && decide (c ≤ 'z')) || (decide ('A' ≤ c) && decide (c ≤ 'Z'))

/-- Word character, the regex class [\w\d] = [A-Za-z0-9_]. -/
def isWordCh (c : Char) : Bool := isAlphaNum c || c = '_'

/-- Character of the regex class [\w\d_.-] used by the @username rule of
`UltimateDevToolsRecon.extractEndpointPattern`. -/
def isUserChDots (c : Char) : Bool := isWordCh c || c = '.' || c = '-'

/-- Character other than '/', the regex class [^/]. -/
def isNonSlash (c : Char) : Bool := c ≠ '/'

/-- One position of a global regex replace: a matcher inspects the text
at the current position and yields the replacement text and the number of
consumed characters on a match. `scanAux` walks the text left to right,
emitting matches and copying unmatched characters, exactly the semantics
of JS String.replace with a global regex; the fuel argument is the text
length, spent one unit per step, so the recursion is structural and the
function computes by kernel reduction. -/
def scanAux (m : List Char → Option (List Char × Nat)) : Nat → List Char → List Char
  | 0, l => l
  | _ + 1, [] => []
  | fuel + 1, c :: rest =>
    match m (c :: rest) with
    | some rk => rk.1 ++ scanAux m fuel ((c :: rest).drop rk.2)
    | none => c :: scanAux m fuel rest

/-- Global replace of a regex (given as a matcher) over a text. -/
def scanRep (m : List Char → Option (List Char × Nat)) (l : List Char) : List Char :=
  scanAux m l.length l

/-- Matcher of /\/\d+/: a slash followed by a maximal nonempty run of
digits; the run is not anchored to a whole path segment, exactly as in
the source. -/
def idMatcher : List Char → Option (List Char × Nat)
  | [] => none
  | c :: rest =>
    if c = '/' && !(rest.takeWhile isDigitCh).isEmpty then
      some ("/{id}".data, (rest.takeWhile isDigitCh).length + 1)
    else none

/-- One global-replace pass of /\/\d+/g by "/{id}". -/
def replaceNumericIds (l : List Char) : List Char := scanRep idMatcher l

/-- Shape test for the 36 characters of a UUID body, 8-4-4-4-12 lowercase
hex groups separated by dashes. -/
def uuidShape (l : List Char) : Bool :=
  l.length = 36 &&
    (List.range 36).all fun i =>
      if i = 8 || i = 13 || i = 18 || i = 23 then l.getD i ' ' = '-'
      else isHexLower (l.getD i ' ')

/-- Matcher of the UUID regex: the fixed quantifiers admit no
backtracking, so a match is exactly a slash followed by 36 characters of
`uuidShape`, regardless of what follows them. -/
def uuidMatcher : List Char → Option (List Char × Nat)
  | [] => none
  | c :: rest =>
    if c = '/' && uuidShape (rest.take 36) then some ("/{uuid}".data, 37)
    else none

/-- One global-replace pass of the UUID rule by "/{uuid}". -/
def replaceUuids (l : List Char) : List Char := scanRep uuidMatcher l

/-- Matcher of /\/[a-zA-Z0-9]\x7b20,\x7d/: a slash followed by a maximal run
of at least 20 alphanumeric characters. -/
def tokenMatcher : List Char → Option (List Char × Nat)
  | [] => none
  | c :: rest =>
    if c = '/' && 20 ≤ (rest.takeWhile isAlphaNum).length then
      some ("/{token}".data, (rest.takeWhile isAlphaNum).length + 1)
    else none

/-- One global-replace pass of the long-token rule by "/{token}". -/
def replaceLongTokens (l : List Char) : List Char := scanRep tokenMatcher l

/-- Matcher of the @username rule; the character class after '@' is a
parameter, [\w\d_.-] in `UltimateDevToolsRecon` and [\w\d_] in
`UniversalEndpointRecon`. -/
def usernameMatcher (uc : Char → Bool) : List Char → Option (List Char × Nat)
  | [] => none
  | c :: rest =>
    if c = '/' && rest.headD ' ' = '@' && !((rest.drop 1).takeWhile uc).isEmpty then
      some ("/@{username}".data, ((rest.drop 1).takeWhile uc).length + 2)
    else none

/-- One global-replace pass of the @username rule by "/@{username}". -/
def replaceUsernames (uc : Char → Bool) (l : List Char) : List Char :=
  scanRep (usernameMatcher uc) l

/-- Matcher of /\/p\/[\w\d]+/. -/
def postIdMatcher : List Char → Option (List Char × Nat)
  | [] => none
  | c :: rest =>
    if c = '/' && rest.headD ' ' = 'p' && (rest.drop 1).headD ' ' = '/' &&
        !((rest.drop 2).takeWhile isWordCh).isEmpty then
      some ("/p/{postId}".data, ((rest.drop 2).takeWhile isWordCh).length + 3)
    else none

/-- One global-replace pass of the post-id rule by "/p/{postId}". -/
def replacePostIds (l : List Char) : List Char := scanRep postIdMatcher l

/-- Matcher of /\/[a-f0-9]\x7b24\x7d/: a slash followed by exactly 24 lowercase
hex characters (what follows the 24 is unconstrained, as with the fixed
quantifier of the source regex). -/
def objectIdMatcher : List Char → Option (List Char × Nat)
  | [] => none
  | c :: rest =>
    if c = '/' && (rest.take 24).length = 24 && (rest.take 24).all isHexLower then
      some ("/{objectId}".data, 25)
    else none

/-- One global-replace pass of the object-id rule by "/{objectId}". -/
def replaceObjectIds (l : List Char) : List Char := scanRep objectIdMatcher l

/-- Matcher of /\/(tmp|temp)\/[^/]+/; the tmp alternative is tried first,
as the regex engine does, though at most one of the two can match at a
given position. -/
def tempMatcher : List Char → Option (List Char × Nat)
  | [] => none
  | c :: rest =>
    if c = '/' && rest.take 4 = "tmp/".data &&
        !((rest.drop 4).takeWhile isNonSlash).isEmpty then
      some ("/{temp}/{file}".data, ((rest.drop 4).takeWhile isNonSlash).length + 5)
    else if c = '/' && rest.take 5 = "temp/".data &&
        !((rest.drop 5).takeWhile isNonSlash).isEmpty then
      some ("/{temp}/{file}".data, ((rest.drop 5).takeWhile isNonSlash).length + 6)
    else none

/-- One global-replace pass of the tmp/temp rule by "/{temp}/{file}". -/
def replaceTempPaths (l : List Char) : List Char := scanRep tempMatcher l

/-- Parsed URL in the sense of the WHATWG URL object used by the source:
`protocol` keeps its trailing colon (e.g. "https:"), `search` is either
empty or starts with '?', `query` mirrors `searchParams` as pairs. -/
structure UrlObj where
  protocol : String
  hostname : String
  pathname : String
  search : String
  query : List (String × String)
deriving DecidableEq, Repr

/-- Serialization of a parsed URL back to its href string. -/
def UrlObj.href (u : UrlObj) : String :=
  u.protocol ++ "//" ++ u.hostname ++ u.pathname ++ u.search

/-- Lookup in an insertion-ordered association list (first occurrence),
modelling JS object property read and Map.get. -/
def lookupA {α : Type} : List (String × α) → String → Option α
  | [], _ => none
  | (k', v) :: rest, k => if k' = k then some v else lookupA rest k

/-- Write of a key in an insertion-ordered association list: updates the
first occurrence in place, appends at the end when the key is fresh.
This is JS object property write and Map.set. -/
def setKey {α : Type} : List (String × α) → String → α → List (String × α)
  | [], k, v => (k, v) :: []
  | (k', v') :: rest, k, v =>
    if k' = k then (k, v) :: rest else (k', v') :: setKey rest k v

/-- Update of the value at a key when present, identity otherwise. -/
def updateA {α : Type} : List (String × α) → String → (α → α) → List (String × α)
  | [], _, _ => []
  | (k', v) :: rest, k, f =>
    if k' = k then (k', f v) :: rest else (k', v) :: updateA rest k f

/-- Update of the first entry whose value satisfies the test, modelling a
for-of loop over a Map that mutates the first hit and breaks. -/
def updFirst {α : Type} (p : α → Bool) (f : α → α) : List (String × α) → List (String × α)
  | [] => []
  | (k, v) :: rest => if p v then (k, f v) :: rest else (k, v) :: updFirst p f rest

/-- Append of an element when absent, modelling JS Set.add insertion order. -/
def addIfAbsent (l : List String) (x : String) : List String :=
  if x ∈ l then l else l ++ (x :: [])

/-- Object.assign(target, src): every key of src is written into target in
order, updating in place or appending. -/
def assignPairs (m : List (String × String)) (h : List (String × String)) :
    List (String × String) :=
  h.foldl (fun acc p => setKey acc p.1 p.2) m

/-- ASCII lowercasing of a string, JS String.toLowerCase on ASCII data. -/
def lowerStr (s : String) : String := String.mk (s.data.map Char.toLower)

/-- JS String.substring(0, n). -/
def takeStr (n : Nat) (s : String) : String := String.mk (s.data.take n)

/-- JS String.includes(sub): some suffix of s has sub as a prefix. -/
def containsSub (s sub : String) : Bool :=
  (List.range (s.data.length + 1)).any fun i => sub.data.isPrefixOf (s.data.drop i)

/-- JS String.startsWith(p). -/
def startsWithStr (s p : String) : Bool := p.data.isPrefixOf s.data

/-- JS String.endsWith(p). -/
def endsWithStr (s p : String) : Bool := p.data.isSuffixOf s.data

/-- Parsed JSON-like value: the untyped dynamic values the extractors
walk. Objects are ordered field chains (objCons key value restOfObject,
ending in objNil) and arrays are ordered element chains, so the type is a
plain (non-nested) inductive and every walker below is structural and
computes by kernel reduction. -/
inductive JsonVal where
  | null : JsonVal
  | bool : Bool → JsonVal
  | num : Int → JsonVal
  | str : String → JsonVal
  | arrNil : JsonVal
  | arrCons : JsonVal → JsonVal → JsonVal
  | objNil : JsonVal
  | objCons : String → JsonVal → JsonVal → JsonVal
deriving DecidableEq

/-- String test, JS typeof value === 'string'. -/
def JsonVal.isStr : JsonVal → Bool
  | .str _ => true
  | _ => false

/-- Payload of a string value, "" on the other constructors (only read
under an `isStr` guard). -/
def JsonVal.strOf : JsonVal → String
  | .str s => s
  | _ => ""

/-- Object test: typeof value === 'object' and not an array and not null. -/
def JsonVal.isObj : JsonVal → Bool
  | .objNil => true
  | .objCons _ _ _ => true
  | _ => false

/-- Array test, JS Array.isArray. -/
def JsonVal.isArr : JsonVal → Bool
  | .arrNil => true
  | .arrCons _ _ => true
  | _ => false

/-- JS truthiness of a parsed JSON value ([] and empty objects are truthy). -/
def JsonVal.truthy : JsonVal → Bool
  | .null => false
  | .bool b => b
  | .num n => n ≠ 0
  | .str s => s ≠ ""
  | .arrNil => true
  | .arrCons _ _ => true
  | .objNil => true
  | .objCons _ _ _ => true

/-- JS property read payload[k] on a parsed JSON value: only objects have
named properties (array index and string lookups by a non-index name give
undefined, modelled as none). -/
def JsonVal.field : JsonVal → String → Option JsonVal
  | .objCons k v rest, key => if k = key then some v else rest.field key
  | _, _ => none

namespace UltimateDevToolsRecon

/-- Path templating of `UltimateDevToolsRecon.extractEndpointPattern`: the
seven global regex replacements of the source, applied in source order —
numeric id, UUID, long token (length at least 20), @username
(class [\w\d_.-]), /p/ post id, 24-hex object id, tmp/temp paths. -/
def templatePath (p : List Char) : List Char :=
  replaceTempPaths (replaceObjectIds (replacePostIds (replaceUsernames isUserChDots
    (replaceLongTokens (replaceUuids (replaceNumericIds p))))))

/-- UltimateDevToolsRecon.extractEndpointPattern: scheme and host verbatim,
path with the variable-segment replacements. -/
def extractEndpointPattern (u : UrlObj) : String :=
  u.protocol ++ "//" ++ u.hostname ++ String.mk (templatePath u.pathname.data)

/-- Endpoint key of `UltimateDevToolsRecon.captureRequest`. -/
def endpointKey (method : String) (u : UrlObj) : String :=
  method ++ " " ++ extractEndpointPattern u

/-- Credential-indicative key fragments of
`UltimateDevToolsRecon.extractAuthFromPayload`. -/
def authKeys : List String :=
  "token" :: "auth" :: "csrf" :: "api_key" :: "access_token" :: "refresh_token" ::
    "session" :: "jwt" :: "bearer" :: "apikey" :: "x-auth-token" :: []

/-- Inner searchObject of `UltimateDevToolsRecon.extractAuthFromPayload`,
walking an object field chain: a key containing any auth fragment
(case-insensitively) stores the raw value at its dotted path, and every
non-array object value is recursed into, with no depth bound. -/
def searchObject : JsonVal → String → List (String × JsonVal) → List (String × JsonVal)
  | .objCons k v rest, path, toks =>
    let currentPath := if path = "" then k else path ++ "." ++ k
    let toks1 := if authKeys.any (fun ak => containsSub (lowerStr k) ak)
                 then setKey toks currentPath v else toks
    let toks2 := if v.isObj then searchObject v currentPath toks1 else toks1
    searchObject rest path toks2
  | _, _, toks => toks

/-- Top-level walk over the indexed entries of an array payload, as
Object.entries enumerates an array; object elements are recursed into by
`searchObject`. -/
def searchArrayEntries : JsonVal → Nat → String → List (String × JsonVal) →
    List (String × JsonVal)
  | .arrCons v rest, i, path, toks =>
    let k := toString i
    let currentPath := if path = "" then k else path ++ "." ++ k
    let toks1 := if authKeys.any (fun ak => containsSub (lowerStr k) ak)
                 then setKey toks currentPath v else toks
    let toks2 := if v.isObj then searchObject v currentPath toks1 else toks1
    searchArrayEntries rest (i + 1) path toks2
  | _, _, _, toks => toks

/-- UltimateDevToolsRecon.extractAuthFromPayload: entry point of the walk;
non-object payloads are ignored (typeof check), arrays enumerate their
indexed entries as Object.entries does. -/
def extractAuthFromPayload (payload : JsonVal) (authTokens : List (String × JsonVal)) :
    List (String × JsonVal) :=
  if payload.isObj then searchObject payload "" authTokens
  else if payload.isArr then searchArrayEntries payload 0 "" authTokens
  else authTokens

end UltimateDevToolsRecon

namespace UniversalEndpointRecon

/-- Path templating of `UniversalEndpointRecon.extractEndpointPattern`: the
five global regex replacements of the source in order — numeric id, UUID,
long token, @username (class [\w\d_]), /p/ post id. -/
def templatePath (p : List Char) : List Char :=
  replacePostIds (replaceUsernames isWordCh
    (replaceLongTokens (replaceUuids (replaceNumericIds p))))

/-- UniversalEndpointRecon.extractEndpointPattern. -/
def extractEndpointPattern (u : UrlObj) : String :=
  u.protocol ++ "//" ++ u.hostname ++ String.mk (templatePath u.pathname.data)

/-- Endpoint key of the request handler of
`UniversalEndpointRecon.setupNetworkInterception`. -/
def endpointKey (method : String) (u : UrlObj) : String :=
  method ++ " " ++ extractEndpointPattern u

end UniversalEndpointRecon

namespace CaptureEverythingRecon

/-- Request body at the handler after the JSON.parse attempt of the source:
either raw text with its parsed JSON value, or text that fails to parse. -/
inductive PostBody where
  | json : String → JsonVal → PostBody
  | raw : String → PostBody
deriving DecidableEq

/-- Raw text of a request body. -/
def PostBody.rawText : PostBody → String
  | .json r _ => r
  | .raw r => r

/-- Payload sample stored on an endpoint: the parsed structure when the
body parses as JSON, the raw text otherwise (timestamps omitted). -/
inductive PayloadEntry where
  | data : JsonVal → PayloadEntry
  | raw : String → PayloadEntry
deriving DecidableEq

/-- Cookie as delivered by requestWillBeSentExtraInfo (c.cookie fields). -/
structure CookieParam where
  name : String
  value : String
  domain : String
  path : String
deriving DecidableEq

/-- Cookie as stored by captureRequestHeaders: value truncated to 50
characters with a "..." suffix. -/
structure CookieInfo where
  name : String
  value : String
  domain : String
  path : String
deriving DecidableEq

/-- Stored form of an associated cookie. -/
def mkCookieInfo (c : CookieParam) : CookieInfo :=
  { name := c.name, value := takeStr 50 c.value ++ "...", domain := c.domain, path := c.path }

/-- Request record pushed by captureRequest (timestamp omitted; initiator
defaulted to "unknown" as in the source). -/
structure RequestData where
  requestId : String
  headers : List (String × String)
  postData : Option String
  hasUserGesture : Bool
  initiator : String
deriving DecidableEq

/-- Response record pushed by captureResponse (timestamp omitted). -/
structure ResponseInfo where
  requestId : String
  status : Nat
  statusText : String
  headers : List (String × String)
  mimeType : String
  fromCache : Bool
deriving DecidableEq

/-- Endpoint record of CaptureEverythingRecon, keyed by method, pathname
and query string. The headers, previewData and timing fields of the
constructor are never written by the three modelled handlers (previewData
and timing only by the unmodelled async captureResponseBody), so they are
omitted here. -/
structure Endpoint where
  method : String
  url : String
  path : String
  query : List (String × String)
  requests : List RequestData
  responses : List ResponseInfo
  cookies : List CookieInfo
  tokens : List String
  payloads : List PayloadEntry
deriving DecidableEq

/-- Mutable state of a CaptureEverythingRecon session touched by the three
modelled CDP handlers: the endpoints map and the target domain. -/
structure CaptureState where
  endpoints : List (String × Endpoint)
  domain : Option String
deriving DecidableEq

/-- Header names scanned by extractTokensFromHeaders. -/
def tokenHeaders : List String :=
  "authorization" :: "x-auth-token" :: "x-csrf-token" :: "x-api-key" ::
    "x-access-token" :: "x-session-token" :: "cookie" :: []

/-- CaptureEverythingRecon.extractTokensFromHeaders: credential-bearing
headers produce fragments in the endpoint token set; a cookie header is
split on ';' and '=' into per-cookie fragments with values truncated to
30 characters, other headers keep 50 characters; "..." is always
appended. -/
def extractTokensFromHeaders (headers : List (String × String)) (tokens : List String) :
    List String :=
  headers.foldl
    (fun toks kv =>
      let lowerKey := lowerStr kv.1
      if lowerKey ∈ tokenHeaders then
        if lowerKey = "cookie" then
          ((kv.2.splitOn ";").map String.trim).foldl
            (fun ts c =>
              let parts := c.splitOn "="
              match parts.get? 0, parts.get? 1 with
              | some name, some val =>
                if name ≠ "" ∧ val ≠ "" then
                  addIfAbsent ts ("cookie." ++ name ++ "=" ++ takeStr 30 val ++ "...")
                else ts
              | _, _ => ts)
            toks
        else addIfAbsent toks (kv.1 ++ "=" ++ takeStr 50 kv.2 ++ "...")
      else toks)
    tokens

/-- Credential-indicative key fragments of extractTokensFromPayload. -/
def tokenKeys : List String :=
  "token" :: "access_token" :: "refresh_token" :: "api_key" :: "session_id" :: "auth" :: []

/-- Inner searchObject of CaptureEverythingRecon.extractTokensFromPayload,
walking an object field chain: a key containing a token fragment with a
string value adds a fragment with the value truncated to 30 characters
plus "..."; every non-array object value is recursed into, with no depth
bound. -/
def searchObject : JsonVal → String → List String → List String
  | .objCons k v rest, path, toks =>
    let toks1 := if (tokenKeys.any fun tk => containsSub (lowerStr k) tk) && v.isStr then
                   addIfAbsent toks ("payload." ++ path ++ k ++ "=" ++ takeStr 30 v.strOf ++ "...")
                 else toks
    let toks2 := if v.isObj then searchObject v (path ++ k ++ ".") toks1 else toks1
    searchObject rest path toks2
  | _, _, toks => toks

/-- Top-level walk over the indexed entries of an array payload, as
Object.entries enumerates an array. -/
def searchArrayEntries : JsonVal → Nat → String → List String → List String
  | .arrCons v rest, i, path, toks =>
    let k := toString i
    let toks1 := if (tokenKeys.any fun tk => containsSub (lowerStr k) tk) && v.isStr then
                   addIfAbsent toks ("payload." ++ path ++ k ++ "=" ++ takeStr 30 v.strOf ++ "...")
                 else toks
    let toks2 := if v.isObj then searchObject v (path ++ k ++ ".") toks1 else toks1
    searchArrayEntries rest (i + 1) path toks2
  | _, _, _, toks => toks

/-- CaptureEverythingRecon.extractTokensFromPayload: entry point of the
walk; non-object payloads are ignored, arrays enumerate their indexed
entries as Object.entries does. -/
def extractTokensFromPayload (payload : JsonVal) (tokens : List String) : List String :=
  if payload.isObj then searchObject payload "" tokens
  else if payload.isArr then searchArrayEntries payload 0 "" tokens
  else tokens

/-- Request description inside a Network.requestWillBeSent event. -/
structure NetRequest where
  url : UrlObj
  method : String
  headers : List (String × String)
  postData : Option PostBody

/-- Network.requestWillBeSent event as consumed by captureRequest. The
resource type field is named reqType (type is reserved in Lean). -/
structure ReqEvent where
  request : NetRequest
  requestId : String
  reqType : String
  initiator : Option String
  hasUserGesture : Bool

/-- Catalog key of captureRequest: method, pathname and query string. -/
def requestKey (ev : ReqEvent) : String :=
  ev.request.method ++ " " ++ ev.request.url.pathname ++ ev.request.url.search

/-- Fresh endpoint record created on first sight of a key. -/
def freshEndpoint (ev : ReqEvent) : Endpoint :=
  { method := ev.request.method, url := ev.request.url.href, path := ev.request.url.pathname,
    query := ev.request.url.query, requests := [], responses := [], cookies := [],
    tokens := [], payloads := [] }

/-- Request record built by captureRequest from an event. -/
def mkRequestData (ev : ReqEvent) : RequestData :=
  { requestId := ev.requestId, headers := ev.request.headers,
    postData := ev.request.postData.map PostBody.rawText,
    hasUserGesture := ev.hasUserGesture, initiator := ev.initiator.getD "unknown" }

/-- Per-endpoint effect of captureRequest once the record exists: push the
request record, extract header tokens, and record the body payload with
its token fragments when present. -/
def ingestRequest (ev : ReqEvent) (e : Endpoint) : Endpoint :=
  let e1 := { e with requests := e.requests ++ (mkRequestData ev :: []) }
  let e2 := { e1 with tokens := extractTokensFromHeaders ev.request.headers e1.tokens }
  match ev.request.postData with
  | none => e2
  | some (.json _ j) =>
    { e2 with payloads := e2.payloads ++ (PayloadEntry.data j :: []),
              tokens := extractTokensFromPayload j e2.tokens }
  | some (.raw r) => { e2 with payloads := e2.payloads ++ (PayloadEntry.raw r :: []) }

/-- CaptureEverythingRecon.captureRequest: only Fetch/XHR resource types
and http(s) URLs pass; the target domain is set on the first /api/ or
/trpc/ URL; the endpoint record is created on first sight of the key and
then enriched. -/
def captureRequest (s : CaptureState) (ev : ReqEvent) : CaptureState :=
  if ev.reqType ≠ "Fetch" ∧ ev.reqType ≠ "XHR" then s
  else if ¬ startsWithStr ev.request.url.href "http" then s
  else
    let href := ev.request.url.href
    let s1 := if s.domain = none ∧ (containsSub href "/api/" ∨ containsSub href "/trpc/")
              then { s with domain := some ev.request.url.hostname } else s
    let key := requestKey ev
    let eps := if (lookupA s1.endpoints key).isNone
               then s1.endpoints ++ ((key, freshEndpoint ev) :: []) else s1.endpoints
    { s1 with endpoints := updateA eps key (ingestRequest ev) }

/-- Network.requestWillBeSentExtraInfo event as consumed by
captureRequestHeaders; a missing headers object is none and absent
associatedCookies are the empty list. -/
structure HeadersEvent where
  requestId : String
  headers : Option (List (String × String))
  associatedCookies : List CookieParam

/-- Test for an endpoint owning the request with the given id. -/
def hasReq (id : String) (e : Endpoint) : Bool :=
  e.requests.any fun r => r.requestId = id

/-- Update of the first request record with the given id, modelling the
mutation of the object found by requests.find. -/
def updFirstReq (id : String) (f : RequestData → RequestData) :
    List RequestData → List RequestData
  | [] => []
  | r :: rest => if r.requestId = id then f r :: rest else r :: updFirstReq id f rest

/-- Merge of an extra-headers fragment into a request record,
Object.assign(request.headers, headers). -/
def mergeReqHeaders (h : List (String × String)) (r : RequestData) : RequestData :=
  { r with headers := assignPairs r.headers h }

/-- Enrichment of the endpoint found by captureRequestHeaders: the extra
headers are merged into the matching request and, when cookies accompany
the event, the cookie list is replaced. -/
def enrichEndpoint (ev : HeadersEvent) (h : List (String × String)) (e : Endpoint) : Endpoint :=
  { e with
      requests := updFirstReq ev.requestId (mergeReqHeaders h) e.requests
      cookies := if ev.associatedCookies.isEmpty then e.cookies
                 else ev.associatedCookies.map mkCookieInfo }

/-- CaptureEverythingRecon.captureRequestHeaders: the first endpoint whose
requests contain the id gets the extra headers merged into that request
(Object.assign) and, when cookies accompany the event, its cookie list
replaced; no endpoint is created when the id is unknown. -/
def captureRequestHeaders (s : CaptureState) (ev : HeadersEvent) : CaptureState :=
  match ev.headers with
  | none => s
  | some h =>
    { s with endpoints := updFirst (hasReq ev.requestId) (enrichEndpoint ev h) s.endpoints }

/-- Network.responseReceived event as consumed by captureResponse. -/
structure RespEvent where
  requestId : String
  respType : String
  status : Nat
  statusText : String
  headers : List (String × String)
  mimeType : String
  fromCache : Bool

/-- Response record built by captureResponse from an event. -/
def mkResponseInfo (ev : RespEvent) : ResponseInfo :=
  { requestId := ev.requestId, status := ev.status, statusText := ev.statusText,
    headers := ev.headers, mimeType := ev.mimeType, fromCache := ev.fromCache }

/-- CaptureEverythingRecon.captureResponse: only Fetch/XHR pass; the first
endpoint whose requests contain the id gets the response record pushed;
no endpoint is created when the id is unknown. -/
def captureResponse (s : CaptureState) (ev : RespEvent) : CaptureState :=
  if ev.respType ≠ "Fetch" ∧ ev.respType ≠ "XHR" then s
  else
    let pushResp : Endpoint → Endpoint :=
      fun e => { e with responses := e.responses ++ (mkResponseInfo ev :: []) }
    { s with endpoints := updFirst (hasReq ev.requestId) pushResp s.endpoints }

end CaptureEverythingRecon

namespace UniversalEndpointRecon

/-- Payload sample of UniversalEndpointRecon: parsed structure plus raw
text (timestamp omitted). -/
structure PayloadSample where
  data : JsonVal
  raw : String
deriving DecidableEq

/-- Response sample pushed by the response handler (timestamp omitted). -/
structure ResponseSample where
  status : Nat
  statusText : String
  headers : List (String × String)
  data : Option JsonVal
deriving DecidableEq

/-- Endpoint record of UniversalEndpointRecon, keyed by method plus
templated pattern. -/
structure Endpoint where
  pattern : String
  method : String
  examples : List UrlObj
  category : String
  headers : List (String × String)
  payloads : List PayloadSample
  responses : List ResponseSample
  parameters : List (String × String)
  isAPI : Bool
deriving DecidableEq

/-- Session state of UniversalEndpointRecon touched by the two
network-interception handlers. The domain is set by discoverEndpoints
before traffic is processed and only read here. -/
structure RState where
  endpoints : List (String × Endpoint)
  uniqueEndpointPaths : List String
  domain : Option String
  authTokens : List (String × JsonVal)
deriving DecidableEq

/-- Static-asset extension test of categorizeEndpoint, the regex
/\.(js|css|png|jpg|jpeg|gif|svg|woff|woff2)$/ on the lowercased path. -/
def staticExt (path : String) : Bool :=
  ("js" :: "css" :: "png" :: "jpg" :: "jpeg" :: "gif" :: "svg" :: "woff" :: "woff2" :: []).any
    fun e => endsWithStr path ("." ++ e)

/-- UniversalEndpointRecon.categorizeEndpoint: ordered substring cascade
over the lowercased pathname, first match wins, default "Other". -/
def categorizeEndpoint (u : UrlObj) : String :=
  let path := lowerStr u.pathname
  if containsSub path "/api/" then "API"
  else if containsSub path "/graphql" then "GraphQL"
  else if containsSub path "/ajax/" then "AJAX"
  else if containsSub path "/rest/" then "REST API"
  else if containsSub path "/feed" then "Feed"
  else if containsSub path "/posts" || containsSub path "/media" then "Content"
  else if containsSub path "/stories" then "Stories"
  else if containsSub path "/reels" then "Reels"
  else if containsSub path "/users" || containsSub path "/profile" then "Users"
  else if containsSub path "/follow" then "Social"
  else if containsSub path "/like" || containsSub path "/comment" then "Engagement"
  else if containsSub path "/message" || containsSub path "/chat" then "Messaging"
  else if containsSub path "/payment" || containsSub path "/subscription" then "Payments"
  else if containsSub path "/shop" || containsSub path "/product" then "Commerce"
  else if containsSub path "/analytics" || containsSub path "/insights" then "Analytics"
  else if containsSub path "/log" || containsSub path "/track" then "Tracking"
  else if containsSub path "/auth" || containsSub path "/login" then "Authentication"
  else if containsSub path "/oauth" || containsSub path "/token" then "OAuth"
  else if staticExt path then "Static"
  else "Other"

/-- UniversalEndpointRecon.isAPIEndpoint. -/
def isAPIEndpoint (u : UrlObj) : Bool :=
  ("/api/" :: "/v1/" :: "/v2/" :: "/graphql" :: "/ajax/" :: "/rest/" :: ".json" ::
      "/data/" :: "/fetch/" :: "/query" :: []).any
    fun ind => containsSub u.pathname ind

/-- UniversalEndpointRecon.isTargetDomain. -/
def isTargetDomain (domain hostname : String) : Bool :=
  hostname = domain || endsWithStr hostname ("." ++ domain) ||
    endsWithStr domain ("." ++ hostname)

/-- Guard of both handlers: a URL is skipped when a target domain is set
and the hostname is not in it. -/
def domainBlocked : Option String → String → Bool
  | none, _ => false
  | some d, h => !(isTargetDomain d h)

/-- Auth key names of UniversalEndpointRecon.extractAuthFromPayload. -/
def authKeyNames : List String :=
  "token" :: "auth" :: "csrf" :: "api_key" :: "access_token" :: "refresh_token" ::
    "session" :: []

/-- UniversalEndpointRecon.extractAuthFromPayload: only the top-level
properties named by `authKeyNames` are read; a truthy value is stored
raw under that name. -/
def extractAuthFromPayload (payload : JsonVal) (toks : List (String × JsonVal)) :
    List (String × JsonVal) :=
  if !payload.truthy then toks
  else
    authKeyNames.foldl
      (fun acc k =>
        match payload.field k with
        | some v => if v.truthy then setKey acc k v else acc
        | none => acc)
      toks

/-- Store of an optionally present, truthy header value. -/
def setIfTruthyStr (toks : List (String × JsonVal)) (name : String) :
    Option String → List (String × JsonVal)
  | some s => if s ≠ "" then setKey toks name (JsonVal.str s) else toks
  | none => toks

/-- UniversalEndpointRecon.extractAuthFromHeaders: authorization,
x-csrf-token and x-api-key headers are stored raw. -/
def extractAuthFromHeaders (headers : List (String × String))
    (toks : List (String × JsonVal)) : List (String × JsonVal) :=
  let t1 := setIfTruthyStr toks "authorization" (lookupA headers "authorization")
  let t2 := setIfTruthyStr t1 "csrf" (lookupA headers "x-csrf-token")
  setIfTruthyStr t2 "apiKey" (lookupA headers "x-api-key")

/-- Store of an optionally present, truthy JSON field. -/
def setIfTruthyField (toks : List (String × JsonVal)) (name : String) :
    Option JsonVal → List (String × JsonVal)
  | some v => if v.truthy then setKey toks name v else toks
  | none => toks

/-- UniversalEndpointRecon.extractAuthFromResponse: access_token,
refresh_token, token and csrf fields of a parsed response are stored raw. -/
def extractAuthFromResponse (data : JsonVal) (toks : List (String × JsonVal)) :
    List (String × JsonVal) :=
  if !data.truthy then toks
  else
    let t1 := setIfTruthyField toks "access" (data.field "access_token")
    let t2 := setIfTruthyField t1 "refresh" (data.field "refresh_token")
    let t3 := setIfTruthyField t2 "token" (data.field "token")
    setIfTruthyField t3 "csrf" (data.field "csrf")

/-- Request event of the context request handler; postData carries the raw
text with its parsePayload result (parsePayload is total: JSON parse with
a URLSearchParams fallback). -/
structure Req where
  url : UrlObj
  method : String
  headers : List (String × String)
  postData : Option (String × JsonVal)

/-- Fresh endpoint record created when the key is first seen. -/
def freshEndpoint (ev : Req) (pattern : String) : Endpoint :=
  { pattern := pattern, method := ev.method, examples := ev.url :: [],
    category := categorizeEndpoint ev.url, headers := ev.headers, payloads := [],
    responses := [], parameters := ev.url.query, isAPI := isAPIEndpoint ev.url }

/-- Example-append mutation of the known-key branch of the request
handler: the URL is pushed when not already recorded. -/
def addExampleFn (u : UrlObj) (e : Endpoint) : Endpoint :=
  if u ∈ e.examples then e else { e with examples := e.examples ++ (u :: []) }

/-- Payload-append mutation of the request handler. -/
def pushPayloadFn (sample : PayloadSample) (e : Endpoint) : Endpoint :=
  { e with payloads := e.payloads ++ (sample :: []) }

/-- Keying stage of the request handler: a fresh key creates a record
seeded with the URL as its first example; a known key appends the URL as
an example if new. -/
def recordKeyStage (s : RState) (ev : Req) (pattern : String) : RState :=
  let key := ev.method ++ " " ++ pattern
  if key ∈ s.uniqueEndpointPaths then
    { s with endpoints := updateA s.endpoints key (addExampleFn ev.url) }
  else
    { s with uniqueEndpointPaths := s.uniqueEndpointPaths ++ (key :: []),
             endpoints := s.endpoints ++ ((key, freshEndpoint ev pattern) :: []) }

/-- Payload stage of the request handler: a body is pushed as a payload
sample and scanned for auth tokens. -/
def payloadStage (s : RState) (ev : Req) (key : String) : RState :=
  match ev.postData with
  | none => s
  | some rp =>
    { s with endpoints := updateA s.endpoints key (pushPayloadFn { data := rp.2, raw := rp.1 }),
             authTokens := extractAuthFromPayload rp.2 s.authTokens }

/-- Request handler installed on the browsing context by
UniversalEndpointRecon.setupNetworkInterception: chrome-internal URLs and
foreign domains are skipped; a fresh key creates a record seeded with the
URL as first example, a known key appends the URL as an example if new;
a body is pushed as payload and scanned for auth tokens; headers are
always scanned for auth tokens. -/
def onRequest (s : RState) (ev : Req) : RState :=
  if startsWithStr ev.url.href "chrome-extension://" || startsWithStr ev.url.href "chrome://"
  then s
  else if domainBlocked s.domain ev.url.hostname then s
  else
    let pattern := extractEndpointPattern ev.url
    let s2 := payloadStage (recordKeyStage s ev pattern) ev (ev.method ++ " " ++ pattern)
    { s2 with authTokens := extractAuthFromHeaders ev.headers s2.authTokens }

/-- Response event of the context response handler; parsedBody is the
result of response.json() when that call succeeds. -/
structure Resp where
  url : UrlObj
  method : String
  status : Nat
  statusText : String
  headers : List (String × String)
  parsedBody : Option JsonVal

/-- Response-append mutation of the response handler. -/
def pushRespFn (r : ResponseSample) (e : Endpoint) : Endpoint :=
  { e with responses := e.responses ++ (r :: []) }

/-- Auth-scan stage of the response handler: a parsed JSON body is
scanned for auth tokens. -/
def respAuthStage (s : RState) : Option JsonVal → RState
  | some j => { s with authTokens := extractAuthFromResponse j s.authTokens }
  | none => s

/-- Response handler installed by setupNetworkInterception: responses for
known keys get a response sample whose data is the parsed JSON body when
the content type mentions json; such a body is also scanned for auth
tokens. Unknown keys are ignored. -/
def onResponse (s : RState) (ev : Resp) : RState :=
  if startsWithStr ev.url.href "chrome-extension://" || startsWithStr ev.url.href "chrome://"
  then s
  else if domainBlocked s.domain ev.url.hostname then s
  else
    let key := ev.method ++ " " ++ extractEndpointPattern ev.url
    if (lookupA s.endpoints key).isSome then
      let ct := (lookupA ev.headers "content-type").getD ""
      let rdata : Option JsonVal := if containsSub ct "json" then ev.parsedBody else none
      let s1 := respAuthStage s rdata
      let sample : ResponseSample :=
        { status := ev.status, statusText := ev.statusText,
          headers := ev.headers, data := rdata }
      { s1 with endpoints := updateA s1.endpoints key (pushRespFn sample) }
    else s

/-- Network event of a UniversalEndpointRecon session. -/
inductive Ev where
  | req : Req → Ev
  | resp : Resp → Ev

/-- Dispatch of one event to its handler. -/
def step (s : RState) : Ev → RState
  | .req e => onRequest s e
  | .resp e => onResponse s e

/-- Session state after a list of events, starting from empty maps with
the target domain fixed by discoverEndpoints. -/
def run (d : Option String) (evs : List Ev) : RState :=
  evs.foldl step { endpoints := [], uniqueEndpointPaths := [], domain := d, authTokens := [] }

end UniversalEndpointRecon

namespace FanvueAPIRecon

/-- Report-time masking of FanvueAPIRecon.generateReport on character
lists: a token longer than 20 characters is rendered as its first 10
characters, "...", and its last 10 characters; shorter tokens are
rendered as they are. -/
def maskTokenL (t : List Char) : List Char :=
  if 20 < t.length then t.take 10 ++ ('.' :: '.' :: '.' :: []) ++ t.drop (t.length - 10)
  else t

/-- Report-time masking of FanvueAPIRecon.generateReport:
token.length > 20 ? token.substring(0, 10) + "..." +
token.substring(token.length - 10) : token. -/
def maskToken (t : String) : String := String.mk (maskTokenL t.data)

end FanvueAPIRecon

/-- URL https://x.com/api/users/<d> for a trailing path piece d, the
family of concrete URLs of the deduplication property. -/
def usersPathUrl (d : List Char) : UrlObj :=
  { protocol := "https:", hostname := "x.com", pathname := String.mk ("/api/users/".data ++ d),
    search := "", query := [] }

/-- URL https://x.com/api/<s> for a trailing path segment s, the family of
concrete URLs of the 24-hex object-id property. -/
def apiSegUrl (s : List Char) : UrlObj :=
  { protocol := "https:", hostname := "x.com", pathname := String.mk ("/api/".data ++ s),
    search := "", query := [] }

/-- A matcher is positional when every match consumes at least one
character. All seven segment matchers are. -/
def MatcherOk (m : List Char → Option (List Char × Nat)) : Prop :=
  ∀ l rk, m l = some rk → 1 ≤ rk.2

/-- Nested test payload: n wrapper objects around a token field, so the
token sits n + 1 object levels deep. -/
def nestObj : Nat → JsonVal
  | 0 => JsonVal.objCons "token" (JsonVal.str "SECRET") JsonVal.objNil
  | n + 1 => JsonVal.objCons "a" (nestObj n) JsonVal.objNil

/-- Dotted-path join used by the payload walker of the source. -/
def pathJoin (p k : String) : String := if p = "" then k else p ++ "." ++ k

/-- Dotted path of the token field of `nestObj n` from a starting path. -/
def nestPath : Nat → String → String
  | 0, p => pathJoin p "token"
  | n + 1, p => nestPath n (pathJoin p "a")

/-- Sample non-API page URL for the filtering counterexamples. -/
def sampleUrl : UrlObj :=
  { protocol := "https:", hostname := "x.com", pathname := "/page", search := "", query := [] }

/-- One-endpoint, one-request state for the merge-idempotence analysis:
the catalog holds GET /page with an in-flight request r1. -/
def c4Endpoint : CaptureEverythingRecon.Endpoint :=
  { method := "GET", url := "https://x.com/page", path := "/page", query := [],
    requests := ({ requestId := "r1", headers := [], postData := none,
                   hasUserGesture := false, initiator := "unknown" } :
                   CaptureEverythingRecon.RequestData) :: [],
    responses := [], cookies := [], tokens := [], payloads := [] }

/-- Catalog state holding `c4Endpoint`. -/
def c4State : CaptureEverythingRecon.CaptureState :=
  { endpoints := ("GET /page", c4Endpoint) :: [], domain := none }

/-- Response-received enrichment event for request r1. -/
def c4Resp : CaptureEverythingRecon.RespEvent :=
  { requestId := "r1", respType := "Fetch", status := 200, statusText := "OK",
    headers := [], mimeType := "application/json", fromCache := false }

/-- Request event GET https://x.com/api/users/<n> with no body, as the
UniversalEndpointRecon request handler receives it. -/
def usersReqEv (n : Nat) : UniversalEndpointRecon.Req :=
  { url := { protocol := "https:", hostname := "x.com",
             pathname := "/api/users/" ++ toString n, search := "", query := [] },
    method := "GET", headers := [], postData := none }

/-- Eleven request events for distinct concrete user URLs, all mapping to
the canonical key GET https://x.com/api/users/{id}. -/
def elevenUserReqs : List UniversalEndpointRecon.Ev :=
  (List.range 11).map fun n => UniversalEndpointRecon.Ev.req (usersReqEv (n + 1))

namespace UniversalEndpointRecon

/-- Event method accessor (request method of either handler's event). -/
def Ev.method : Ev → String
  | .req e => e.method
  | .resp e => e.method

/-- Round-trip invariant of the endpoints map: each record is stored
under the key built from its own method and pattern, its method has no
space (so the key splits unambiguously), and every stored example URL
templates to the record's own pattern. -/
def EpInv (l : List (String × Endpoint)) : Prop :=
  ∀ p ∈ l, (¬ ' ' ∈ p.2.method.data) ∧
    p.1 = p.2.method ++ " " ++ p.2.pattern ∧
    ∀ u ∈ p.2.examples, extractEndpointPattern u = p.2.pattern

end UniversalEndpointRecon

/-- Record produced by two user-URL requests, for the C6 witness. -/
def c6Record : UniversalEndpointRecon.Endpoint :=
  { pattern := "https://x.com/api/users/{id}", method := "GET",
    examples := (usersReqEv 1).url :: (usersReqEv 2).url :: [],
    category := "API", headers := [], payloads := [], responses := [],
    parameters := [], isAPI := true }

/-- Concrete API URL shared by the two exchanges of the order-invariance
analysis. -/
def c5Url : UrlObj :=
  { protocol := "https:", hostname := "x.com", pathname := "/api/users", search := "", query := [] }

/-- Request-start event of an exchange with the given identifier, GET on
`c5Url`. -/
def c5Ev (rid : String) : CaptureEverythingRecon.ReqEvent :=
  { request := { url := c5Url, method := "GET", headers := [], postData := none },
    requestId := rid, reqType := "Fetch", initiator := none, hasUserGesture := false }

/-- Empty CaptureEverythingRecon session state. -/
def emptyCapture : CaptureEverythingRecon.CaptureState := { endpoints := [], domain := none }

/-- Request-start event of a second exchange with a different canonical
key (GET /api/posts). -/
def c5EvB : CaptureEverythingRecon.ReqEvent :=
  { request := { url := { protocol := "https:", hostname := "x.com", pathname := "/api/posts",
                          search := "", query := [] },
                 method := "GET", headers := [], postData := none },
    requestId := "r2", reqType := "Fetch", initiator := none, hasUserGesture := false }

/-- Endpoint record up to the order of its accumulated lists: requests,
responses and payloads as multisets and the token set as a finite set;
all scalar fields verbatim. -/
structure NormEndpoint where
  method : String
  url : String
  path : String
  query : List (String × String)
  requests : Multiset CaptureEverythingRecon.RequestData
  responses : Multiset CaptureEverythingRecon.ResponseInfo
  cookies : List CaptureEverythingRecon.CookieInfo
  tokens : Finset String
  payloads : Multiset CaptureEverythingRecon.PayloadEntry

/-- Order-insensitive view of an endpoint record. -/
def normEp (e : CaptureEverythingRecon.Endpoint) : NormEndpoint :=
  { method := e.method, url := e.url, path := e.path, query := e.query,
    requests := (e.requests : Multiset _), responses := (e.responses : Multiset _),
    cookies := e.cookies, tokens := e.tokens.toFinset,
    payloads := (e.payloads : Multiset _) }

/-- Catalog up to entry order and per-record list order. -/
def normCatalog (s : CaptureEverythingRecon.CaptureState) :
    Multiset (String × NormEndpoint) :=
  ((s.endpoints.map fun p => (p.1, normEp p.2)) : Multiset (String × NormEndpoint))


section ScannerLemmas


theorem takeWhile_len_le (p : Char → Bool) : ∀ l : List Char, (l.takeWhile p).length ≤ l.length := by
  intro l
  induction l with
  | nil => simp
  | cons c rest ih =>
    by_cases h : p c
    · simp [List.takeWhile_cons, h]
      omega
    · simp [List.takeWhile_cons, h]

theorem scanAux_fuel (m : List Char → Option (List Char × Nat)) (hm : MatcherOk m) :
    ∀ f1 f2 l, l.length ≤ f1 → l.length ≤ f2 → scanAux m f1 l = scanAux m f2 l := by
  intro f1
  induction f1 with
  | zero =>
    intro f2 l h1 h2
    have : l = [] := List.length_eq_zero.mp (Nat.le_zero.mp h1)
    subst this
    cases f2 <;> rfl
  | succ f1 ih =>
    intro f2 l h1 h2
    cases l with
    | nil => cases f2 <;> rfl
    | cons c rest =>
      cases f2 with
      | zero => simp at h2
      | succ f2 =>
        simp only [scanAux]
        cases hmc : m (c :: rest) with
        | none =>
          simp only [List.length_cons] at h1 h2
          rw [ih f2 rest (by omega) (by omega)]
        | some rk =>
          have hk : 1 ≤ rk.2 := hm _ _ hmc
          have hd : ((c :: rest).drop rk.2).length ≤ f1 := by
            simp only [List.length_drop, List.length_cons]
            simp only [List.length_cons] at h1
            omega
          have hd2 : ((c :: rest).drop rk.2).length ≤ f2 := by
            simp only [List.length_drop, List.length_cons]
            simp only [List.length_cons] at h2
            omega
          exact congrArg (fun t => rk.1 ++ t) (ih f2 _ hd hd2)

theorem scanRep_copy (m : List Char → Option (List Char × Nat)) (c : Char) (rest : List Char)
    (h : m (c :: rest) = none) : scanRep m (c :: rest) = c :: scanRep m rest := by
  simp only [scanRep, List.length_cons, scanAux, h]

theorem scanRep_match (m : List Char → Option (List Char × Nat)) (hm : MatcherOk m)
    (c : Char) (rest : List Char) (rk : List Char × Nat) (h : m (c :: rest) = some rk) :
    scanRep m (c :: rest) = rk.1 ++ scanRep m ((c :: rest).drop rk.2) := by
  simp only [scanRep, List.length_cons, scanAux, h]
  have hk : 1 ≤ rk.2 := hm _ _ h
  have := scanAux_fuel m hm rest.length ((c :: rest).drop rk.2).length ((c :: rest).drop rk.2)
    (by simp only [List.length_drop, List.length_cons]; omega)
    (Nat.le_refl _)
  rw [this]

theorem scanAux_nil (m : List Char → Option (List Char × Nat)) :
    ∀ fuel, scanAux m fuel [] = [] := by
  intro fuel
  cases fuel <;> rfl

theorem scanRep_no_match_chars (m : List Char → Option (List Char × Nat)) :
    ∀ l : List Char, (∀ c ∈ l, ∀ rest, m (c :: rest) = none) → scanRep m l = l := by
  intro l
  induction l with
  | nil => intro _; rfl
  | cons c rest ih =>
    intro hl
    rw [scanRep_copy m c rest (hl c (List.mem_cons_self c rest) rest)]
    rw [ih fun x hx => hl x (List.mem_cons_of_mem c hx)]

end ScannerLemmas

section MatcherLemmas

theorem idMatcher_ok : MatcherOk idMatcher := by
  intro l rk h
  cases l with
  | nil => simp [idMatcher] at h
  | cons c rest =>
    simp only [idMatcher] at h
    by_cases hg : (c = '/' && !(rest.takeWhile isDigitCh).isEmpty) = true
    · rw [if_pos hg] at h
      cases h
      omega
    · rw [if_neg hg] at h
      cases h

theorem tokenMatcher_ok : MatcherOk tokenMatcher := by
  intro l rk h
  cases l with
  | nil => simp [tokenMatcher] at h
  | cons c rest =>
    simp only [tokenMatcher] at h
    by_cases hg : (c = '/' && decide (20 ≤ (rest.takeWhile isAlphaNum).length)) = true
    · rw [if_pos hg] at h
      cases h
      omega
    · rw [if_neg hg] at h
      cases h

theorem idMatcher_not_slash (c : Char) (rest : List Char) (h : ¬ c = '/') :
    idMatcher (c :: rest) = none := by
  simp [idMatcher, h]

theorem uuidMatcher_not_slash (c : Char) (rest : List Char) (h : ¬ c = '/') :
    uuidMatcher (c :: rest) = none := by
  simp [uuidMatcher, h]

theorem tokenMatcher_not_slash (c : Char) (rest : List Char) (h : ¬ c = '/') :
    tokenMatcher (c :: rest) = none := by
  simp [tokenMatcher, h]

theorem hexLower_ne_slash {c : Char} (h : isHexLower c = true) : ¬ c = '/' := by
  intro e
  subst e
  exact absurd h (by decide)

theorem hexLower_alnum {c : Char} (h : isHexLower c = true) : isAlphaNum c = true := by
  simp only [isHexLower, Bool.or_eq_true, Bool.and_eq_true, decide_eq_true_eq] at h
  simp only [isAlphaNum, Bool.or_eq_true, Bool.and_eq_true, decide_eq_true_eq]
  rcases h with h | h
  · exact Or.inl (Or.inl h)
  · exact Or.inl (Or.inr ⟨h.1, le_trans h.2 (by decide)⟩)

end MatcherLemmas

section TemplaterUsers

theorem rni_users (d : List Char) (h1 : d ≠ []) (h2 : ∀ c ∈ d, isDigitCh c = true) :
    replaceNumericIds ("/api/users/".data ++ d) = "/api/users/{id}".data := by
  have hm : idMatcher ('/' :: d) = some ("/{id}".data, d.length + 1) := by
    have htw : d.takeWhile isDigitCh = d := List.takeWhile_eq_self_iff.mpr h2
    simp [idMatcher, htw, h1]
  have step : scanAux idMatcher (d.length + 1) ('/' :: d) = "/{id}".data := by
    simp only [scanAux, hm]
    rw [List.drop_succ_cons, List.drop_length, scanAux_nil]
    simp
  show '/' :: 'a' :: 'p' :: 'i' :: '/' :: 'u' :: 's' :: 'e' :: 'r' :: 's' :: scanAux idMatcher (d.length + 1) ('/' :: d)
      = "/api/users/{id}".data
  rw [step]

theorem udtr_users_key (d : List Char) (h1 : d ≠ []) (h2 : ∀ c ∈ d, isDigitCh c = true) :
    UltimateDevToolsRecon.endpointKey "GET" (usersPathUrl d) = "GET https://x.com/api/users/{id}" := by
  unfold UltimateDevToolsRecon.endpointKey UltimateDevToolsRecon.extractEndpointPattern
  unfold UltimateDevToolsRecon.templatePath usersPathUrl
  have hdata : (String.mk ("/api/users/".data ++ d)).data = "/api/users/".data ++ d := rfl
  rw [hdata, rni_users d h1 h2]
  rfl

theorem uer_users_key (d : List Char) (h1 : d ≠ []) (h2 : ∀ c ∈ d, isDigitCh c = true) :
    UniversalEndpointRecon.endpointKey "GET" (usersPathUrl d) = "GET https://x.com/api/users/{id}" := by
  unfold UniversalEndpointRecon.endpointKey UniversalEndpointRecon.extractEndpointPattern
  unfold UniversalEndpointRecon.templatePath usersPathUrl
  have hdata : (String.mk ("/api/users/".data ++ d)).data = "/api/users/".data ++ d := rfl
  rw [hdata, rni_users d h1 h2]
  rfl

end TemplaterUsers

/-- C1: templating is invariant in the numeric path segment — for any two
nonempty digit strings d1, d2 the URLs https://x.com/api/users/d1 and
https://x.com/api/users/d2 receive the same canonical key under both
templaters (`UltimateDevToolsRecon.extractEndpointPattern` and
`UniversalEndpointRecon.extractEndpointPattern`), and that key is
GET https://x.com/api/users/{id}; templating GET https://x.com/api/users/123
and GET https://x.com/api/users/456 is the instance d1 = 123, d2 = 456. -/
theorem C1_segment_invariant_dedup (d1 d2 : List Char)
    (h1 : d1 ≠ []) (h2 : d2 ≠ [])
    (hd1 : ∀ c ∈ d1, isDigitCh c = true) (hd2 : ∀ c ∈ d2, isDigitCh c = true) :
    UltimateDevToolsRecon.endpointKey "GET" (usersPathUrl d1)
        = UltimateDevToolsRecon.endpointKey "GET" (usersPathUrl d2) ∧
    UniversalEndpointRecon.endpointKey "GET" (usersPathUrl d1)
        = UniversalEndpointRecon.endpointKey "GET" (usersPathUrl d2) ∧
    UltimateDevToolsRecon.endpointKey "GET" (usersPathUrl d1)
        = "GET https://x.com/api/users/{id}" ∧
    UniversalEndpointRecon.endpointKey "GET" (usersPathUrl d1)
        = "GET https://x.com/api/users/{id}" := by
  refine ⟨?_, ?_, ?_, ?_⟩
  · rw [udtr_users_key d1 h1 hd1, udtr_users_key d2 h2 hd2]
  · rw [uer_users_key d1 h1 hd1, uer_users_key d2 h2 hd2]
  · exact udtr_users_key d1 h1 hd1
  · exact uer_users_key d1 h1 hd1

/-- C1 witness: the instance 123 against 456, hypotheses discharged by
computation. -/
theorem C1_segment_invariant_dedup_witness :
    UltimateDevToolsRecon.endpointKey "GET" (usersPathUrl "123".data)
        = UltimateDevToolsRecon.endpointKey "GET" (usersPathUrl "456".data) ∧
    UniversalEndpointRecon.endpointKey "GET" (usersPathUrl "123".data)
        = UniversalEndpointRecon.endpointKey "GET" (usersPathUrl "456".data) ∧
    UltimateDevToolsRecon.endpointKey "GET" (usersPathUrl "123".data)
        = "GET https://x.com/api/users/{id}" ∧
    UniversalEndpointRecon.endpointKey "GET" (usersPathUrl "123".data)
        = "GET https://x.com/api/users/{id}" :=
  C1_segment_invariant_dedup "123".data "456".data (by decide) (by decide)
    (by decide) (by decide)

section TemplaterHex

theorem rni_api_hex (s : List Char) (hlen : s.length = 24)
    (hhex : ∀ c ∈ s, isHexLower c = true) (hhead : isDigitCh (s.headD ' ') = false) :
    replaceNumericIds ("/api/".data ++ s) = "/api/".data ++ s := by
  have hid_s : ∀ c ∈ s, ∀ rest, idMatcher (c :: rest) = none :=
    fun c hc rest => idMatcher_not_slash c rest (hexLower_ne_slash (hhex c hc))
  have htw0 : s.takeWhile isDigitCh = [] := by
    cases s with
    | nil => rfl
    | cons c0 t =>
      have : isDigitCh c0 = false := hhead
      simp [List.takeWhile_cons, this]
  have hslash : idMatcher ('/' :: s) = none := by
    simp [idMatcher, htw0]
  have h1 : scanAux idMatcher (s.length + 1) ('/' :: s) = '/' :: s := by
    simp only [scanAux, hslash]
    exact congrArg (fun t => '/' :: t) (scanRep_no_match_chars idMatcher s hid_s)
  show '/' :: 'a' :: 'p' :: 'i' :: scanAux idMatcher (s.length + 1) ('/' :: s) = '/' :: 'a' :: 'p' :: 'i' :: '/' ::s
  rw [h1]

theorem uuidShape_false_of_len {l : List Char} (h : ¬ l.length = 36) :
    uuidShape l = false := by
  have hd : (decide (l.length = 36)) = false := decide_eq_false h
  simp [uuidShape, hd]

theorem uuids_api_hex (s : List Char) (hlen : s.length = 24)
    (hhex : ∀ c ∈ s, isHexLower c = true) :
    replaceUuids ("/api/".data ++ s) = "/api/".data ++ s := by
  have huu_s : ∀ c ∈ s, ∀ rest, uuidMatcher (c :: rest) = none :=
    fun c hc rest => uuidMatcher_not_slash c rest (hexLower_ne_slash (hhex c hc))
  have hm0 : uuidMatcher ('/' :: 'a' :: 'p' :: 'i' :: '/' ::s) = none := by
    have hne : ¬ (('a' :: 'p' :: 'i' :: '/' ::s).take 36).length = 36 := by
      simp only [List.length_take, List.length_cons, hlen]
      omega
    simp only [uuidMatcher]
    rw [uuidShape_false_of_len hne]
    simp
  have hm4 : uuidMatcher ('/' :: s) = none := by
    have hne : ¬ (s.take 36).length = 36 := by
      simp only [List.length_take, hlen]
      omega
    simp only [uuidMatcher]
    rw [uuidShape_false_of_len hne]
    simp
  show replaceUuids ('/' :: 'a' :: 'p' :: 'i' :: '/' ::s) = '/' :: 'a' :: 'p' :: 'i' :: '/' ::s
  rw [show replaceUuids ('/' :: 'a' :: 'p' :: 'i' :: '/' ::s)
        = scanRep uuidMatcher ('/' :: 'a' :: 'p' :: 'i' :: '/' ::s) from rfl]
  rw [scanRep_copy uuidMatcher '/' ('a' :: 'p' :: 'i' :: '/' ::s) hm0]
  rw [scanRep_copy uuidMatcher 'a' ('p' :: 'i' :: '/' ::s) (by rfl)]
  rw [scanRep_copy uuidMatcher 'p' ('i' :: '/' ::s) (by rfl)]
  rw [scanRep_copy uuidMatcher 'i' ('/' ::s) (by rfl)]
  rw [scanRep_copy uuidMatcher '/' s hm4]
  rw [scanRep_no_match_chars uuidMatcher s huu_s]

theorem tokens_api_hex (s : List Char) (hlen : s.length = 24)
    (hhex : ∀ c ∈ s, isHexLower c = true) :
    replaceLongTokens ("/api/".data ++ s) = "/api/{token}".data := by
  have htws : s.takeWhile isAlphaNum = s :=
    List.takeWhile_eq_self_iff.mpr (fun c hc => hexLower_alnum (hhex c hc))
  have hmtok : tokenMatcher ('/' :: s) = some ("/{token}".data, s.length + 1) := by
    simp [tokenMatcher, htws, hlen]
  have step : scanAux tokenMatcher (s.length + 1) ('/' :: s) = "/{token}".data := by
    simp only [scanAux, hmtok]
    rw [List.drop_succ_cons, List.drop_length, scanAux_nil]
    simp
  show '/' :: 'a' :: 'p' :: 'i' :: scanAux tokenMatcher (s.length + 1) ('/' :: s) = "/api/{token}".data
  rw [step]

end TemplaterHex

/-- C8 counterexample: the 24-hex segment aaaaaaaaaaaaaaaaaaaaaaaa in
https://x.com/api/aaaaaaaaaaaaaaaaaaaaaaaa is templated as {token} by
`UltimateDevToolsRecon.extractEndpointPattern`, not as {objectId} as the
claim requires: the length-20 token rule runs before the 24-hex rule. -/
theorem C8_objectid_rule_shadowed :
    UltimateDevToolsRecon.extractEndpointPattern (apiSegUrl "aaaaaaaaaaaaaaaaaaaaaaaa".data)
        = "https://x.com/api/{token}" ∧
    ¬ UltimateDevToolsRecon.extractEndpointPattern (apiSegUrl "aaaaaaaaaaaaaaaaaaaaaaaa".data)
        = "https://x.com/api/{objectId}" := by
  constructor
  · decide
  · decide

/-- C8 amended: the matchers apply in the source order numeric id, UUID,
long token, @username, /p/ post id, 24-hex object id, tmp/temp; since a
24-character lowercase-hex segment is also a run of at least 20
alphanumerics, the earlier token rule consumes it, so every path segment
of exactly 24 lowercase hex characters not starting with a digit is
replaced by {token} (a digit-leading one is first hit by the numeric
rule), and the {objectId} placeholder is never produced for such a
segment. -/
theorem C8_hex24_templated_as_token (s : List Char) (hlen : s.length = 24)
    (hhex : ∀ c ∈ s, isHexLower c = true) (hhead : isDigitCh (s.headD ' ') = false) :
    UltimateDevToolsRecon.extractEndpointPattern (apiSegUrl s) = "https://x.com/api/{token}" := by
  unfold UltimateDevToolsRecon.extractEndpointPattern UltimateDevToolsRecon.templatePath apiSegUrl
  have hdata : (String.mk ("/api/".data ++ s)).data = "/api/".data ++ s := rfl
  rw [hdata, rni_api_hex s hlen hhex hhead, uuids_api_hex s hlen hhex, tokens_api_hex s hlen hhex]
  rfl

/-- C8 witness for the amended theorem: the all-a 24-hex segment. -/
theorem C8_hex24_templated_as_token_witness :
    UltimateDevToolsRecon.extractEndpointPattern (apiSegUrl "aaaaaaaaaaaaaaaaaaaaaaaa".data)
        = "https://x.com/api/{token}" :=
  C8_hex24_templated_as_token "aaaaaaaaaaaaaaaaaaaaaaaa".data (by decide) (by decide) (by decide)

/-- C2 counterexample: the Credential Extractor of UltimateDevToolsRecon
(`extractAuthFromPayload`) stores the raw 26-character value of a token
field unchanged in the authTokens store — no prefix/suffix redaction is
applied at extraction time, and the stored value equals the raw value. -/
theorem C2_raw_value_persisted :
    lookupA
        (UltimateDevToolsRecon.extractAuthFromPayload
          (JsonVal.objCons "token" (JsonVal.str "abcdefghijklmnopqrstuvwxyz") JsonVal.objNil) [])
        "token"
      = some (JsonVal.str "abcdefghijklmnopqrstuvwxyz") ∧
    20 < ("abcdefghijklmnopqrstuvwxyz" : String).length := by
  constructor
  · rfl
  · decide

/-- C2 amended: extraction stores values unredacted (see the
counterexample); the prefix(10) + "..." + suffix(10) redaction with
threshold 20 exists, but it is applied at report-rendering time by
FanvueAPIRecon.generateReport (`maskToken`): a value longer than 20
characters renders as its first 10 characters, "...", and its last 10
(so exactly 23 characters, hence different from any raw value whose
length is not 23), and a value of at most 20 characters renders as
itself. -/
theorem C2_redaction_at_render (t : String) :
    (20 < t.length →
      FanvueAPIRecon.maskToken t
          = takeStr 10 t ++ "..." ++ String.mk (t.data.drop (t.length - 10)) ∧
      (FanvueAPIRecon.maskToken t).length = 23) ∧
    (t.length ≤ 20 → FanvueAPIRecon.maskToken t = t) ∧
    (23 < t.length → ¬ FanvueAPIRecon.maskToken t = t) := by
  have hmask : ∀ h : 20 < t.data.length,
      FanvueAPIRecon.maskToken t
        = String.mk (t.data.take 10 ++ ('.' :: '.' :: '.' :: []) ++ t.data.drop (t.data.length - 10)) := by
    intro h
    unfold FanvueAPIRecon.maskToken FanvueAPIRecon.maskTokenL
    rw [if_pos h]
  refine ⟨?_, ?_, ?_⟩
  · intro h
    have hd : 20 < t.data.length := h
    constructor
    · rw [hmask hd]
      apply String.ext
      simp [String.data_append, takeStr]
    · rw [hmask hd]
      show (t.data.take 10 ++ ('.' :: '.' :: '.' :: []) ++ t.data.drop (t.data.length - 10)).length = 23
      simp [List.length_append, List.length_take, List.length_drop]
      omega
  · intro h
    have hd : ¬ 20 < t.data.length := not_lt.mpr h
    unfold FanvueAPIRecon.maskToken FanvueAPIRecon.maskTokenL
    rw [if_neg hd]
  · intro h heq
    have hd : 20 < t.data.length := by
      have : 20 < t.length := by omega
      exact this
    have hlen : (FanvueAPIRecon.maskToken t).length = 23 := by
      rw [hmask hd]
      show (t.data.take 10 ++ ('.' :: '.' :: '.' :: []) ++ t.data.drop (t.data.length - 10)).length = 23
      simp [List.length_append, List.length_take, List.length_drop]
      omega
    rw [heq] at hlen
    omega

/-- C2 witness for the amended theorem: a 26-character token renders
masked with length 23 and differs from its raw value; a 5-character token
renders as itself. -/
theorem C2_redaction_at_render_witness :
    FanvueAPIRecon.maskToken "abcdefghijklmnopqrstuvwxyz"
        = takeStr 10 "abcdefghijklmnopqrstuvwxyz" ++ "..."
          ++ String.mk ("abcdefghijklmnopqrstuvwxyz".data.drop
              (("abcdefghijklmnopqrstuvwxyz" : String).length - 10)) ∧
    (FanvueAPIRecon.maskToken "abcdefghijklmnopqrstuvwxyz").length = 23 ∧
    ¬ FanvueAPIRecon.maskToken "abcdefghijklmnopqrstuvwxyz" = "abcdefghijklmnopqrstuvwxyz" ∧
    FanvueAPIRecon.maskToken "abcde" = "abcde" :=
  ⟨((C2_redaction_at_render "abcdefghijklmnopqrstuvwxyz").1 (by decide)).1,
   ((C2_redaction_at_render "abcdefghijklmnopqrstuvwxyz").1 (by decide)).2,
   (C2_redaction_at_render "abcdefghijklmnopqrstuvwxyz").2.2 (by decide),
   (C2_redaction_at_render "abcde").2.1 (by decide)⟩


theorem nestObj_isObj (n : Nat) : (nestObj n).isObj = true := by
  cases n <;> rfl

theorem nest_walk (n : Nat) : ∀ p toks,
    UltimateDevToolsRecon.searchObject (nestObj n) p toks
      = setKey toks (nestPath n p) (JsonVal.str "SECRET") := by
  induction n with
  | zero =>
    intro p toks
    have hg : (UltimateDevToolsRecon.authKeys.any fun ak =>
        containsSub (lowerStr "token") ak) = true := by decide
    simp [UltimateDevToolsRecon.searchObject, hg, nestObj, nestPath, pathJoin, JsonVal.isObj]
  | succ n ih =>
    intro p toks
    have hg : (UltimateDevToolsRecon.authKeys.any fun ak =>
        containsSub (lowerStr "a") ak) = false := by decide
    simp [UltimateDevToolsRecon.searchObject, hg, nestObj, nestObj_isObj, nestPath, pathJoin, ih]

/-- C9 counterexample: the payload walk of
`UltimateDevToolsRecon.extractAuthFromPayload` has no depth bound — a
token nested under 12 wrapper objects (deeper than the fixed depth 10 the
claim asserts) still contributes a credential fragment, at dotted path
a.a.a.a.a.a.a.a.a.a.a.a.token. -/
theorem C9_depth12_token_extracted :
    lookupA (UltimateDevToolsRecon.extractAuthFromPayload (nestObj 12) []) (nestPath 12 "")
        = some (JsonVal.str "SECRET") ∧
    nestPath 12 "" = "a.a.a.a.a.a.a.a.a.a.a.a.token" := by
  constructor
  · rfl
  · rfl

/-- C9 amended: the recursive walk over structured bodies is structurally
recursive, so it terminates on every finite tree, but it imposes no fixed
depth bound: for every n, a token field nested under n wrapper objects is
extracted by `UltimateDevToolsRecon.extractAuthFromPayload`. -/
theorem C9_walk_unbounded_depth (n : Nat) :
    lookupA (UltimateDevToolsRecon.extractAuthFromPayload (nestObj n) []) (nestPath n "")
      = some (JsonVal.str "SECRET") := by
  have hobj := nestObj_isObj n
  have hw := nest_walk n "" []
  simp [UltimateDevToolsRecon.extractAuthFromPayload, hobj, hw, setKey, lookupA]


theorem updFirst_none {α : Type} (p : α → Bool) (f : α → α) :
    ∀ l : List (String × α), (∀ kv ∈ l, p kv.2 = false) → updFirst p f l = l := by
  intro l
  induction l with
  | nil => intro _; rfl
  | cons kv rest ih =>
    intro h
    have hkv : p kv.2 = false := h kv (List.mem_cons_self kv rest)
    cases kv with
    | mk k v =>
      simp only [updFirst]
      rw [hkv]
      simp
      exact ih fun x hx => h x (List.mem_cons_of_mem _ hx)

/-- C10: resource-type filtering — a requestWillBeSent or responseReceived
event whose type is neither Fetch nor XHR makes `captureRequest` and
`captureResponse` of CaptureEverythingRecon return the state completely
unchanged: non-API traffic never creates or modifies any catalog entry. -/
theorem C10_non_fetch_xhr_ignored (s : CaptureEverythingRecon.CaptureState)
    (rev : CaptureEverythingRecon.ReqEvent) (sev : CaptureEverythingRecon.RespEvent)
    (hr1 : ¬ rev.reqType = "Fetch") (hr2 : ¬ rev.reqType = "XHR")
    (hs1 : ¬ sev.respType = "Fetch") (hs2 : ¬ sev.respType = "XHR") :
    CaptureEverythingRecon.captureRequest s rev = s ∧
    CaptureEverythingRecon.captureResponse s sev = s := by
  constructor
  · unfold CaptureEverythingRecon.captureRequest
    rw [if_pos ⟨hr1, hr2⟩]
  · unfold CaptureEverythingRecon.captureResponse
    rw [if_pos ⟨hs1, hs2⟩]

/-- C10 witness: a Document request and a Script response leave a
one-endpoint state untouched. -/
theorem C10_non_fetch_xhr_ignored_witness :
    CaptureEverythingRecon.captureRequest { endpoints := [], domain := none }
        { request := { url := sampleUrl, method := "GET", headers := [], postData := none },
          requestId := "r1", reqType := "Document", initiator := none, hasUserGesture := false }
      = { endpoints := [], domain := none } ∧
    CaptureEverythingRecon.captureResponse { endpoints := [], domain := none }
        { requestId := "r1", respType := "Script", status := 200, statusText := "OK",
          headers := [], mimeType := "text/javascript", fromCache := false }
      = { endpoints := [], domain := none } :=
  C10_non_fetch_xhr_ignored { endpoints := [], domain := none }
    { request := { url := sampleUrl, method := "GET", headers := [], postData := none },
      requestId := "r1", reqType := "Document", initiator := none, hasUserGesture := false }
    { requestId := "r1", respType := "Script", status := 200, statusText := "OK",
      headers := [], mimeType := "text/javascript", fromCache := false }
    (by decide) (by decide) (by decide) (by decide)

/-- C7 counterexample: an orphan enrichment event — a Fetch
responseReceived or a requestWillBeSentExtraInfo whose requestId matches
no in-flight request — leaves the empty catalog exactly empty: no
synthetic partial Exchange is created, the event data is discarded. -/
theorem C7_orphan_enrichment_dropped :
    CaptureEverythingRecon.captureResponse { endpoints := [], domain := none }
        { requestId := "r9", respType := "Fetch", status := 200, statusText := "OK",
          headers := ("x-a", "b") :: [], mimeType := "application/json", fromCache := false }
      = { endpoints := [], domain := none } ∧
    CaptureEverythingRecon.captureRequestHeaders { endpoints := [], domain := none }
        { requestId := "r9", headers := some (("authorization", "Bearer t") :: []),
          associatedCookies := [] }
      = { endpoints := [], domain := none } := by
  constructor
  · rfl
  · rfl

/-- C7 amended: enrichment events whose exchange identifier matches no
in-flight request are silently dropped — `captureRequestHeaders` and
`captureResponse` only enrich an endpoint that already holds the
requestId and return the state unchanged otherwise. -/
theorem C7_orphan_enrichment_noop (s : CaptureEverythingRecon.CaptureState)
    (hev : CaptureEverythingRecon.HeadersEvent) (rev : CaptureEverythingRecon.RespEvent)
    (h1 : ∀ p ∈ s.endpoints, CaptureEverythingRecon.hasReq hev.requestId p.2 = false)
    (h2 : ∀ p ∈ s.endpoints, CaptureEverythingRecon.hasReq rev.requestId p.2 = false) :
    CaptureEverythingRecon.captureRequestHeaders s hev = s ∧
    CaptureEverythingRecon.captureResponse s rev = s := by
  constructor
  · cases hev with
    | mk rid hdrs cks =>
      cases hdrs with
      | none => rfl
      | some h =>
        unfold CaptureEverythingRecon.captureRequestHeaders
        simp only []
        rw [updFirst_none _ _ s.endpoints h1]
  · unfold CaptureEverythingRecon.captureResponse
    split
    · rfl
    · simp only []
      rw [updFirst_none _ _ s.endpoints h2]

/-- C7 witness for the amended theorem: the empty catalog with the two
orphan events of the counterexample. -/
theorem C7_orphan_enrichment_noop_witness :
    CaptureEverythingRecon.captureRequestHeaders { endpoints := [], domain := none }
        { requestId := "r9", headers := some (("authorization", "Bearer t") :: []),
          associatedCookies := [] }
      = { endpoints := [], domain := none } ∧
    CaptureEverythingRecon.captureResponse { endpoints := [], domain := none }
        { requestId := "r9", respType := "Fetch", status := 200, statusText := "OK",
          headers := ("x-a", "b") :: [], mimeType := "application/json", fromCache := false }
      = { endpoints := [], domain := none } :=
  C7_orphan_enrichment_noop { endpoints := [], domain := none }
    { requestId := "r9", headers := some (("authorization", "Bearer t") :: []),
      associatedCookies := [] }
    { requestId := "r9", respType := "Fetch", status := 200, statusText := "OK",
      headers := ("x-a", "b") :: [], mimeType := "application/json", fromCache := false }
    (by simp) (by simp)

section AssocLemmas

theorem lookupA_setKey_self {α : Type} (m : List (String × α)) (k : String) (v : α) :
    lookupA (setKey m k v) k = some v := by
  induction m with
  | nil => simp [setKey, lookupA]
  | cons kv rest ih =>
    cases kv with
    | mk k' v' =>
      by_cases h : k' = k
      · subst h
        simp [setKey, lookupA]
      · simp [setKey, lookupA, h, ih]

theorem lookupA_setKey_ne {α : Type} (m : List (String × α)) (k' k : String) (v : α)
    (h : ¬ k' = k) : lookupA (setKey m k' v) k = lookupA m k := by
  induction m with
  | nil => simp [setKey, lookupA, h]
  | cons kv rest ih =>
    cases kv with
    | mk k1 v1 =>
      by_cases h1 : k1 = k'
      · subst h1
        simp [setKey, lookupA, h]
      · simp only [setKey, if_neg h1]
        by_cases h2 : k1 = k
        · simp [lookupA, h2]
        · simp [lookupA, h2, ih]

theorem setKey_lookup_eq {α : Type} (m : List (String × α)) (k : String) (v : α)
    (h : lookupA m k = some v) : setKey m k v = m := by
  induction m with
  | nil => simp [lookupA] at h
  | cons kv rest ih =>
    cases kv with
    | mk k1 v1 =>
      by_cases h1 : k1 = k
      · subst h1
        simp only [lookupA, if_pos] at h
        cases h
        simp [setKey]
      · simp only [lookupA, if_neg h1] at h
        simp [setKey, h1, ih h]

theorem assignPairs_cons (m : List (String × String)) (k : String) (v : String)
    (t : List (String × String)) :
    assignPairs m ((k, v) :: t) = assignPairs (setKey m k v) t := rfl

theorem lookupA_assign_not_mem (h : List (String × String)) :
    ∀ m k, ¬ k ∈ h.map Prod.fst → lookupA (assignPairs m h) k = lookupA m k := by
  induction h with
  | nil => intro m k _; rfl
  | cons kv t ih =>
    intro m k hk
    cases kv with
    | mk k1 v1 =>
      simp only [List.map_cons, List.mem_cons] at hk
      push_neg at hk
      rw [assignPairs_cons, ih (setKey m k1 v1) k hk.2,
        lookupA_setKey_ne m k1 k v1 (fun e => hk.1 e.symm)]

theorem lookupA_assign_mem (h : List (String × String)) :
    ∀ m k v, (h.map Prod.fst).Nodup → (k, v) ∈ h →
      lookupA (assignPairs m h) k = some v := by
  induction h with
  | nil => intro m k v _ hm; simp at hm
  | cons kv t ih =>
    intro m k v hnd hm
    cases kv with
    | mk k1 v1 =>
      simp only [List.map_cons, List.nodup_cons] at hnd
      rcases List.mem_cons.mp hm with he | ht
      · cases he
        rw [assignPairs_cons, lookupA_assign_not_mem t (setKey m k v) k hnd.1,
          lookupA_setKey_self]
      · rw [assignPairs_cons]
        exact ih (setKey m k1 v1) k v hnd.2 ht

theorem assignPairs_fix (h : List (String × String)) :
    ∀ m, (∀ kv ∈ h, lookupA m kv.1 = some kv.2) → assignPairs m h = m := by
  induction h with
  | nil => intro m _; rfl
  | cons kv t ih =>
    intro m hfix
    cases kv with
    | mk k1 v1 =>
      rw [assignPairs_cons,
        setKey_lookup_eq m k1 v1 (hfix (k1, v1) (List.mem_cons_self _ _))]
      exact ih m fun x hx => hfix x (List.mem_cons_of_mem _ hx)

theorem assignPairs_idem (m h : List (String × String)) (hnd : (h.map Prod.fst).Nodup) :
    assignPairs (assignPairs m h) h = assignPairs m h :=
  assignPairs_fix h (assignPairs m h) fun kv hkv =>
    lookupA_assign_mem h m kv.1 kv.2 hnd hkv

end AssocLemmas

namespace CaptureEverythingRecon

theorem updFirstReq_idem (id : String) (g : RequestData → RequestData)
    (hid : ∀ r, (g r).requestId = r.requestId) (hgg : ∀ r, g (g r) = g r) :
    ∀ rs : List RequestData, updFirstReq id g (updFirstReq id g rs) = updFirstReq id g rs := by
  intro rs
  induction rs with
  | nil => rfl
  | cons r rest ih =>
    by_cases h : r.requestId = id
    · have h1 : updFirstReq id g (r :: rest) = g r :: rest := by
        simp [updFirstReq, h]
      rw [h1]
      simp [updFirstReq, hid r, h, hgg r]
    · have h1 : updFirstReq id g (r :: rest) = r :: updFirstReq id g rest := by
        simp [updFirstReq, h]
      rw [h1]
      simp [updFirstReq, h, ih]

theorem hasReq_updFirstReq (id rid : String) (g : RequestData → RequestData)
    (hid : ∀ r, (g r).requestId = r.requestId) :
    ∀ rs : List RequestData,
      (updFirstReq rid g rs).any (fun r => r.requestId = id)
        = rs.any (fun r => r.requestId = id) := by
  intro rs
  induction rs with
  | nil => rfl
  | cons r rest ih =>
    by_cases h : r.requestId = rid
    · simp [updFirstReq, h, hid r]
    · simp [updFirstReq, h, ih]

theorem updFirst_idem {α : Type} (P : α → Bool) (f : α → α)
    (hP : ∀ v, P (f v) = P v) (hf : ∀ v, P v = true → f (f v) = f v) :
    ∀ l : List (String × α), updFirst P f (updFirst P f l) = updFirst P f l := by
  intro l
  induction l with
  | nil => rfl
  | cons kv rest ih =>
    cases kv with
    | mk k v =>
      by_cases h : P v = true
      · have h1 : updFirst P f ((k, v) :: rest) = (k, f v) :: rest := by
          simp [updFirst, h]
        rw [h1]
        simp [updFirst, hP v, h, hf v h]
      · have h1 : updFirst P f ((k, v) :: rest) = (k, v) :: updFirst P f rest := by
          simp [updFirst, h]
        rw [h1]
        simp [updFirst, h, ih]

theorem mergeReqHeaders_requestId (h : List (String × String)) (r : RequestData) :
    (mergeReqHeaders h r).requestId = r.requestId := rfl

theorem mergeReqHeaders_idem (h : List (String × String))
    (hnd : (h.map Prod.fst).Nodup) (r : RequestData) :
    mergeReqHeaders h (mergeReqHeaders h r) = mergeReqHeaders h r := by
  cases r with
  | mk rid hd pd hg ini =>
    simp [mergeReqHeaders, assignPairs_idem hd h hnd]

theorem hasReq_enrich (ev : HeadersEvent) (h : List (String × String)) (id : String)
    (e : Endpoint) : hasReq id (enrichEndpoint ev h e) = hasReq id e := by
  cases e with
  | mk m u p q rq rs ck tk pl =>
    simp only [hasReq, enrichEndpoint]
    exact hasReq_updFirstReq id ev.requestId (mergeReqHeaders h)
      (mergeReqHeaders_requestId h) rq

theorem enrich_idem (ev : HeadersEvent) (h : List (String × String))
    (hnd : (h.map Prod.fst).Nodup) (e : Endpoint) :
    enrichEndpoint ev h (enrichEndpoint ev h e) = enrichEndpoint ev h e := by
  cases e with
  | mk m u p q rq rs ck tk pl =>
    have h1 : updFirstReq ev.requestId (mergeReqHeaders h)
          (updFirstReq ev.requestId (mergeReqHeaders h) rq)
        = updFirstReq ev.requestId (mergeReqHeaders h) rq :=
      updFirstReq_idem ev.requestId (mergeReqHeaders h) (mergeReqHeaders_requestId h)
        (mergeReqHeaders_idem h hnd) rq
    have h2 : (if ev.associatedCookies.isEmpty then
            (if ev.associatedCookies.isEmpty then ck else ev.associatedCookies.map mkCookieInfo)
          else ev.associatedCookies.map mkCookieInfo)
        = (if ev.associatedCookies.isEmpty then ck else ev.associatedCookies.map mkCookieInfo) := by
      by_cases hc : ev.associatedCookies.isEmpty <;> simp [hc]
    simp only [enrichEndpoint]
    rw [h1, h2]

end CaptureEverythingRecon


/-- C4 counterexample: applying the same response-received enrichment
event twice to a state with one in-flight exchange yields a different
state than applying it once — the second application appends a second
copy of the response record (responses length 2 against 1), so the merge
is not idempotent. -/
theorem C4_response_replay_not_idempotent :
    ¬ CaptureEverythingRecon.captureResponse
          (CaptureEverythingRecon.captureResponse c4State c4Resp) c4Resp
        = CaptureEverythingRecon.captureResponse c4State c4Resp ∧
    (CaptureEverythingRecon.captureResponse
        (CaptureEverythingRecon.captureResponse c4State c4Resp) c4Resp).endpoints.map
        (fun p => p.2.responses.length) = 2 :: [] ∧
    (CaptureEverythingRecon.captureResponse c4State c4Resp).endpoints.map
        (fun p => p.2.responses.length) = 1 :: [] := by
  refine ⟨by decide, by decide, by decide⟩

/-- C4 amended: enrichment replay is idempotent for the
extra-request-headers event — merging the same header fragment twice
(with its names distinct, as the keys of a JS object are) leaves the
state of the first merge unchanged — but not for response-received, which
appends a duplicate response record on replay (see the counterexample). -/
theorem C4_headers_merge_idempotent (s : CaptureEverythingRecon.CaptureState)
    (ev : CaptureEverythingRecon.HeadersEvent)
    (hnd : ((ev.headers.getD []).map Prod.fst).Nodup) :
    CaptureEverythingRecon.captureRequestHeaders
        (CaptureEverythingRecon.captureRequestHeaders s ev) ev
      = CaptureEverythingRecon.captureRequestHeaders s ev := by
  cases ev with
  | mk rid hdrs cks =>
    cases hdrs with
    | none => rfl
    | some h =>
      have hnd2 : (h.map Prod.fst).Nodup := by simpa using hnd
      have key : updFirst (CaptureEverythingRecon.hasReq rid)
            (CaptureEverythingRecon.enrichEndpoint ⟨rid, some h, cks⟩ h)
            (updFirst (CaptureEverythingRecon.hasReq rid)
              (CaptureEverythingRecon.enrichEndpoint ⟨rid, some h, cks⟩ h)
              s.endpoints)
          = updFirst (CaptureEverythingRecon.hasReq rid)
              (CaptureEverythingRecon.enrichEndpoint ⟨rid, some h, cks⟩ h) s.endpoints :=
        CaptureEverythingRecon.updFirst_idem (CaptureEverythingRecon.hasReq rid)
          (CaptureEverythingRecon.enrichEndpoint ⟨rid, some h, cks⟩ h)
          (fun v => CaptureEverythingRecon.hasReq_enrich ⟨rid, some h, cks⟩ h rid v)
          (fun v _ => CaptureEverythingRecon.enrich_idem ⟨rid, some h, cks⟩ h hnd2 v)
          s.endpoints
      exact congrArg
        (fun l => ({ endpoints := l, domain := s.domain } : CaptureEverythingRecon.CaptureState))
        key

/-- C4 witness for the amended theorem: replaying an extra-headers event
for request r1 on the one-endpoint state is a no-op. -/
theorem C4_headers_merge_idempotent_witness :
    CaptureEverythingRecon.captureRequestHeaders
        (CaptureEverythingRecon.captureRequestHeaders c4State
          { requestId := "r1", headers := some (("x-extra", "1") :: ("accept", "a") :: []),
            associatedCookies := [] })
        { requestId := "r1", headers := some (("x-extra", "1") :: ("accept", "a") :: []),
          associatedCookies := [] }
      = CaptureEverythingRecon.captureRequestHeaders c4State
          { requestId := "r1", headers := some (("x-extra", "1") :: ("accept", "a") :: []),
            associatedCookies := [] } :=
  C4_headers_merge_idempotent c4State
    { requestId := "r1", headers := some (("x-extra", "1") :: ("accept", "a") :: []),
      associatedCookies := [] } (by decide)


/-- C3: after ingesting 11 exchanges for the same canonical key the
examples list of the record holds all 11 concrete URLs — there is no cap
at 10 (or at any size): the handler pushes every unseen URL unboundedly. -/
theorem C3_examples_exceed_cap :
    ((UniversalEndpointRecon.run none elevenUserReqs).endpoints.map
        fun p => (p.1, p.2.examples.length))
      = ("GET https://x.com/api/users/{id}", 11) :: [] ∧ 10 < 11 := by
  refine ⟨by decide, by decide⟩


section SpaceSplit

theorem append_space_inj : ∀ (a : List Char) (c b d : List Char), ¬ ' ' ∈ a → ¬ ' ' ∈ c →
    a ++ ' ' :: b = c ++ ' ' :: d → a = c ∧ b = d := by
  intro a
  induction a with
  | nil =>
    intro c b d _ hc h
    cases c with
    | nil =>
      simp at h
      exact ⟨rfl, h⟩
    | cons x xs =>
      simp only [List.nil_append, List.cons_append, List.cons.injEq] at h
      exfalso
      apply hc
      rw [← h.1]
      exact List.mem_cons_self ' ' xs
  | cons y ys ih =>
    intro c b d ha hc h
    cases c with
    | nil =>
      simp only [List.nil_append, List.cons_append, List.cons.injEq] at h
      exfalso
      apply ha
      rw [h.1]
      exact List.mem_cons_self ' ' ys
    | cons x xs =>
      simp only [List.cons_append, List.cons.injEq] at h
      have ha' : ¬ ' ' ∈ ys := fun hmem => ha (List.mem_cons_of_mem _ hmem)
      have hc' : ¬ ' ' ∈ xs := fun hmem => hc (List.mem_cons_of_mem _ hmem)
      obtain ⟨e1, e2⟩ := ih xs b d ha' hc' h.2
      exact ⟨by rw [h.1, e1], e2⟩

theorem key_split (m1 p1 m2 p2 : String) (h1 : ¬ ' ' ∈ m1.data) (h2 : ¬ ' ' ∈ m2.data)
    (h : m1 ++ " " ++ p1 = m2 ++ " " ++ p2) : m1 = m2 ∧ p1 = p2 := by
  have hd := congrArg String.data h
  simp only [String.data_append, List.append_assoc] at hd
  have hd' : m1.data ++ ' ' :: p1.data = m2.data ++ ' ' :: p2.data := by
    simpa using hd
  obtain ⟨e1, e2⟩ := append_space_inj m1.data m2.data p1.data p2.data h1 h2 hd'
  exact ⟨String.ext e1, String.ext e2⟩

end SpaceSplit

theorem lookupA_mem {α : Type} : ∀ (l : List (String × α)) (k : String) (v : α),
    lookupA l k = some v → (k, v) ∈ l := by
  intro l
  induction l with
  | nil => intro k v h; simp [lookupA] at h
  | cons kv rest ih =>
    intro k v h
    cases kv with
    | mk k1 v1 =>
      by_cases h1 : k1 = k
      · subst h1
        simp only [lookupA, if_pos] at h
        cases h
        exact List.mem_cons_self _ _
      · simp only [lookupA, if_neg h1] at h
        exact List.mem_cons_of_mem _ (ih k v h)

theorem updateA_forall {α : Type} {P : String × α → Prop} (k : String) (f : α → α) :
    ∀ l : List (String × α), (∀ p ∈ l, P p) →
      (∀ kv : String × α, P kv → kv.1 = k → P (kv.1, f kv.2)) →
      ∀ p ∈ updateA l k f, P p := by
  intro l
  induction l with
  | nil => intro _ _ p hp; simp [updateA] at hp
  | cons kv rest ih =>
    intro hl hf p hp
    cases kv with
    | mk k1 v1 =>
      by_cases h1 : k1 = k
      · rw [updateA, if_pos h1] at hp
        rcases List.mem_cons.mp hp with he | ht
        · subst he
          exact hf (k1, v1) (hl _ (List.mem_cons_self _ _)) h1
        · exact hl _ (List.mem_cons_of_mem _ ht)
      · rw [updateA, if_neg h1] at hp
        rcases List.mem_cons.mp hp with he | ht
        · subst he
          exact hl _ (List.mem_cons_self _ _)
        · exact ih (fun q hq => hl q (List.mem_cons_of_mem _ hq)) hf p ht

namespace UniversalEndpointRecon


theorem recordKeyStage_inv (s : RState) (ev : Req) (hs : EpInv s.endpoints)
    (hm : ¬ ' ' ∈ ev.method.data) :
    EpInv (recordKeyStage s ev (extractEndpointPattern ev.url)).endpoints := by
  unfold recordKeyStage
  dsimp only
  split
  · apply updateA_forall _ _ s.endpoints hs
    intro kv hkv hk
    have hkey : ev.method ++ " " ++ extractEndpointPattern ev.url
        = kv.2.method ++ " " ++ kv.2.pattern := hk.symm.trans hkv.2.1
    have hsplit := key_split ev.method (extractEndpointPattern ev.url)
      kv.2.method kv.2.pattern hm hkv.1 hkey
    unfold addExampleFn
    by_cases hex : ev.url ∈ kv.2.examples
    · rw [if_pos hex]
      exact hkv
    · rw [if_neg hex]
      refine ⟨hkv.1, hkv.2.1, ?_⟩
      intro u hu
      rcases List.mem_append.mp hu with h1 | h2
      · exact hkv.2.2 u h1
      · have he : u = ev.url := by simpa using h2
        rw [he]
        exact hsplit.2
  · intro p hp
    rcases List.mem_append.mp hp with h1 | h2
    · exact hs p h1
    · have hpe : p = (ev.method ++ " " ++ extractEndpointPattern ev.url,
          freshEndpoint ev (extractEndpointPattern ev.url)) := by simpa using h2
      subst hpe
      refine ⟨hm, rfl, ?_⟩
      intro u hu
      have he : u = ev.url := by simpa [freshEndpoint] using hu
      rw [he]
      rfl

theorem payloadStage_inv (s : RState) (ev : Req) (key : String) (hs : EpInv s.endpoints) :
    EpInv (payloadStage s ev key).endpoints := by
  unfold payloadStage
  cases ev with
  | mk url method headers postData =>
    cases postData with
    | none => exact hs
    | some rp =>
      apply updateA_forall _ _ s.endpoints hs
      intro kv hkv _
      exact ⟨hkv.1, hkv.2.1, hkv.2.2⟩

theorem onRequest_inv (s : RState) (ev : Req) (hs : EpInv s.endpoints)
    (hm : ¬ ' ' ∈ ev.method.data) : EpInv (onRequest s ev).endpoints := by
  unfold onRequest
  split
  · exact hs
  · split
    · exact hs
    · exact payloadStage_inv _ ev _ (recordKeyStage_inv s ev hs hm)

theorem respAuthStage_endpoints (s : RState) (rd : Option JsonVal) :
    (respAuthStage s rd).endpoints = s.endpoints := by
  cases rd <;> rfl

theorem onResponse_inv (s : RState) (ev : Resp) (hs : EpInv s.endpoints) :
    EpInv (onResponse s ev).endpoints := by
  unfold onResponse
  split
  · exact hs
  · split
    · exact hs
    · dsimp only
      split
      · apply updateA_forall
        · rw [respAuthStage_endpoints]
          exact hs
        · intro kv hkv _
          exact ⟨hkv.1, hkv.2.1, hkv.2.2⟩
      · exact hs

theorem run_inv_aux (evs : List Ev) : ∀ s : RState, EpInv s.endpoints →
    (∀ ev ∈ evs, ¬ ' ' ∈ (Ev.method ev).data) →
    EpInv (evs.foldl step s).endpoints := by
  induction evs with
  | nil => intro s hs _; exact hs
  | cons ev rest ih =>
    intro s hs hm
    have h1 : EpInv (step s ev).endpoints := by
      cases ev with
      | req e => exact onRequest_inv s e hs (hm _ (List.mem_cons_self _ _))
      | resp e => exact onResponse_inv s e hs
    exact ih (step s ev) h1 fun x hx => hm x (List.mem_cons_of_mem _ hx)

end UniversalEndpointRecon

/-- C6: round-trip consistency — in every catalog state reachable by the
UniversalEndpointRecon handlers from the empty session (with any target
domain and any event sequence whose request methods contain no space, as
HTTP methods do), every concrete URL stored in a record's examples
templates under `extractEndpointPattern` to the record's own canonical
key, method followed by the record's pattern. -/
theorem C6_examples_template_to_key (d : Option String) (evs : List UniversalEndpointRecon.Ev)
    (hm : ∀ ev ∈ evs, ¬ ' ' ∈ (UniversalEndpointRecon.Ev.method ev).data)
    (k : String) (e : UniversalEndpointRecon.Endpoint)
    (hlook : lookupA (UniversalEndpointRecon.run d evs).endpoints k = some e) :
    k = e.method ++ " " ++ e.pattern ∧
    ∀ u ∈ e.examples, e.method ++ " " ++ UniversalEndpointRecon.extractEndpointPattern u = k := by
  have hinv : UniversalEndpointRecon.EpInv (UniversalEndpointRecon.run d evs).endpoints := by
    apply UniversalEndpointRecon.run_inv_aux evs _ _ hm
    intro p hp
    simp at hp
  have hp := hinv (k, e) (lookupA_mem _ k e hlook)
  have h1 : k = e.method ++ " " ++ e.pattern := hp.2.1
  have h2 : ∀ u ∈ e.examples, UniversalEndpointRecon.extractEndpointPattern u = e.pattern :=
    hp.2.2
  refine ⟨h1, ?_⟩
  intro u hu
  rw [h2 u hu]
  exact h1.symm


/-- C6 witness: two concrete user URLs collapse into one record whose
examples both template back to its key. -/
theorem C6_examples_template_to_key_witness :
    "GET https://x.com/api/users/{id}" = c6Record.method ++ " " ++ c6Record.pattern ∧
    ∀ u ∈ c6Record.examples,
      c6Record.method ++ " " ++ UniversalEndpointRecon.extractEndpointPattern u
        = "GET https://x.com/api/users/{id}" :=
  C6_examples_template_to_key none
    (UniversalEndpointRecon.Ev.req (usersReqEv 1) :: UniversalEndpointRecon.Ev.req (usersReqEv 2) :: [])
    (by decide) "GET https://x.com/api/users/{id}" c6Record (by decide)


/-- C5 counterexample: feeding the events of two independent exchanges
(distinct requestIds r1, r2, same URL) in the two possible interleavings
yields two literally different final catalogs — the per-endpoint requests
list records arrival order. -/
theorem C5_interleaving_not_identical :
    ¬ CaptureEverythingRecon.captureRequest
          (CaptureEverythingRecon.captureRequest emptyCapture (c5Ev "r1")) (c5Ev "r2")
        = CaptureEverythingRecon.captureRequest
            (CaptureEverythingRecon.captureRequest emptyCapture (c5Ev "r2")) (c5Ev "r1") := by
  decide


theorem captureRequest_filtered (s : CaptureEverythingRecon.CaptureState)
    (ev : CaptureEverythingRecon.ReqEvent)
    (hf : (¬ ev.reqType = "Fetch" ∧ ¬ ev.reqType = "XHR") ∨
      ¬ startsWithStr ev.request.url.href "http" = true) :
    CaptureEverythingRecon.captureRequest s ev = s := by
  unfold CaptureEverythingRecon.captureRequest
  rcases hf with h | h
  · rw [if_pos h]
  · by_cases h2 : ¬ ev.reqType = "Fetch" ∧ ¬ ev.reqType = "XHR"
    · rw [if_pos h2]
    · rw [if_neg h2, if_pos h]

theorem captureRequest_passes (s : CaptureEverythingRecon.CaptureState)
    (ev : CaptureEverythingRecon.ReqEvent)
    (h1 : ¬ (¬ ev.reqType = "Fetch" ∧ ¬ ev.reqType = "XHR"))
    (h2 : startsWithStr ev.request.url.href "http" = true) :
    (CaptureEverythingRecon.captureRequest s ev).endpoints =
      updateA
        (if (lookupA s.endpoints (CaptureEverythingRecon.requestKey ev)).isNone
         then s.endpoints ++
           ((CaptureEverythingRecon.requestKey ev, CaptureEverythingRecon.freshEndpoint ev) :: [])
         else s.endpoints)
        (CaptureEverythingRecon.requestKey ev) (CaptureEverythingRecon.ingestRequest ev) := by
  unfold CaptureEverythingRecon.captureRequest
  rw [if_neg h1, if_neg (by simpa using h2)]
  dsimp only
  split <;> rfl

theorem multiset_append_swap {α : Type} (R : List α) (a b : α) :
    (((R ++ (a :: [])) ++ (b :: [])) : Multiset α)
      = (((R ++ (b :: [])) ++ (a :: [])) : Multiset α) := by
  apply Multiset.coe_eq_coe.mpr
  rw [List.append_assoc, List.append_assoc]
  exact List.Perm.append_left R (List.Perm.swap b a [])

theorem normEp_ingest_comm (ev1 ev2 : CaptureEverythingRecon.ReqEvent)
    (hreq : ev1.request = ev2.request) (E : CaptureEverythingRecon.Endpoint) :
    normEp (CaptureEverythingRecon.ingestRequest ev2 (CaptureEverythingRecon.ingestRequest ev1 E))
      = normEp (CaptureEverythingRecon.ingestRequest ev1
          (CaptureEverythingRecon.ingestRequest ev2 E)) := by
  unfold CaptureEverythingRecon.ingestRequest
  rw [← hreq]
  cases hp : ev1.request.postData with
  | none =>
    simp only [hp, normEp]
    congr 1
    exact multiset_append_swap E.requests
      (CaptureEverythingRecon.mkRequestData ev1) (CaptureEverythingRecon.mkRequestData ev2)
  | some pb =>
    cases pb with
    | json r j =>
      simp only [hp, normEp]
      congr 1
      exact multiset_append_swap E.requests
        (CaptureEverythingRecon.mkRequestData ev1) (CaptureEverythingRecon.mkRequestData ev2)
    | raw r =>
      simp only [hp, normEp]
      congr 1
      exact multiset_append_swap E.requests
        (CaptureEverythingRecon.mkRequestData ev1) (CaptureEverythingRecon.mkRequestData ev2)

/-- C5 amended: feeding the request-start events of two exchanges in
either order yields final catalogs that are equal up to entry order and
per-record list order (same keys, same multisets of request records,
same token sets), provided the two exchanges map to different canonical
keys or carry the same request data; literal state identity fails (see
the counterexample) because lists record arrival order, and when the two
events share a key but differ in URL the first-seen URL wins the record's
scalar fields. -/
theorem C5_order_invariance_up_to_order (e1 e2 : CaptureEverythingRecon.ReqEvent)
    (h : ¬ CaptureEverythingRecon.requestKey e1 = CaptureEverythingRecon.requestKey e2 ∨
      e1.request = e2.request) :
    normCatalog (CaptureEverythingRecon.captureRequest
        (CaptureEverythingRecon.captureRequest emptyCapture e1) e2)
      = normCatalog (CaptureEverythingRecon.captureRequest
          (CaptureEverythingRecon.captureRequest emptyCapture e2) e1) := by
  by_cases hf1 : (¬ e1.reqType = "Fetch" ∧ ¬ e1.reqType = "XHR") ∨
      ¬ startsWithStr e1.request.url.href "http" = true
  · rw [captureRequest_filtered emptyCapture e1 hf1,
      captureRequest_filtered (CaptureEverythingRecon.captureRequest emptyCapture e2) e1 hf1]
  · by_cases hf2 : (¬ e2.reqType = "Fetch" ∧ ¬ e2.reqType = "XHR") ∨
        ¬ startsWithStr e2.request.url.href "http" = true
    · rw [captureRequest_filtered (CaptureEverythingRecon.captureRequest emptyCapture e1) e2 hf2,
        captureRequest_filtered emptyCapture e2 hf2]
    · have h1a : ¬ (¬ e1.reqType = "Fetch" ∧ ¬ e1.reqType = "XHR") :=
        fun hh => hf1 (Or.inl hh)
      have h1b : startsWithStr e1.request.url.href "http" = true := by
        by_contra hh
        exact hf1 (Or.inr hh)
      have h2a : ¬ (¬ e2.reqType = "Fetch" ∧ ¬ e2.reqType = "XHR") :=
        fun hh => hf2 (Or.inl hh)
      have h2b : startsWithStr e2.request.url.href "http" = true := by
        by_contra hh
        exact hf2 (Or.inr hh)
      have hin1 : (CaptureEverythingRecon.captureRequest emptyCapture e1).endpoints
          = (CaptureEverythingRecon.requestKey e1,
             CaptureEverythingRecon.ingestRequest e1 (CaptureEverythingRecon.freshEndpoint e1)) :: [] := by
        rw [captureRequest_passes emptyCapture e1 h1a h1b]
        simp [emptyCapture, lookupA, updateA]
      have hin2 : (CaptureEverythingRecon.captureRequest emptyCapture e2).endpoints
          = (CaptureEverythingRecon.requestKey e2,
             CaptureEverythingRecon.ingestRequest e2 (CaptureEverythingRecon.freshEndpoint e2)) :: [] := by
        rw [captureRequest_passes emptyCapture e2 h2a h2b]
        simp [emptyCapture, lookupA, updateA]
      rcases h with hk | hreq
      · have hk' : ¬ CaptureEverythingRecon.requestKey e2 = CaptureEverythingRecon.requestKey e1 :=
          fun e => hk e.symm
        have hout1 : (CaptureEverythingRecon.captureRequest
              (CaptureEverythingRecon.captureRequest emptyCapture e1) e2).endpoints
            = (CaptureEverythingRecon.requestKey e1,
               CaptureEverythingRecon.ingestRequest e1 (CaptureEverythingRecon.freshEndpoint e1)) ::
              (CaptureEverythingRecon.requestKey e2,
               CaptureEverythingRecon.ingestRequest e2 (CaptureEverythingRecon.freshEndpoint e2)) :: [] := by
          rw [captureRequest_passes _ e2 h2a h2b, hin1]
          simp [lookupA, updateA, hk, hk']
        have hout2 : (CaptureEverythingRecon.captureRequest
              (CaptureEverythingRecon.captureRequest emptyCapture e2) e1).endpoints
            = (CaptureEverythingRecon.requestKey e2,
               CaptureEverythingRecon.ingestRequest e2 (CaptureEverythingRecon.freshEndpoint e2)) ::
              (CaptureEverythingRecon.requestKey e1,
               CaptureEverythingRecon.ingestRequest e1 (CaptureEverythingRecon.freshEndpoint e1)) :: [] := by
          rw [captureRequest_passes _ e1 h1a h1b, hin2]
          simp [lookupA, updateA, hk, hk']
        unfold normCatalog
        rw [hout1, hout2]
        apply Multiset.coe_eq_coe.mpr
        simp only [List.map_cons, List.map_nil]
        exact List.Perm.swap _ _ []
      · have hkey : CaptureEverythingRecon.requestKey e2 = CaptureEverythingRecon.requestKey e1 := by
          unfold CaptureEverythingRecon.requestKey
          rw [hreq]
        have hfr : CaptureEverythingRecon.freshEndpoint e2 = CaptureEverythingRecon.freshEndpoint e1 := by
          unfold CaptureEverythingRecon.freshEndpoint
          rw [hreq]
        have hout1 : (CaptureEverythingRecon.captureRequest
              (CaptureEverythingRecon.captureRequest emptyCapture e1) e2).endpoints
            = (CaptureEverythingRecon.requestKey e1,
               CaptureEverythingRecon.ingestRequest e2 (CaptureEverythingRecon.ingestRequest e1
                 (CaptureEverythingRecon.freshEndpoint e1))) :: [] := by
          rw [captureRequest_passes _ e2 h2a h2b, hin1, hkey]
          simp [lookupA, updateA]
        have hout2 : (CaptureEverythingRecon.captureRequest
              (CaptureEverythingRecon.captureRequest emptyCapture e2) e1).endpoints
            = (CaptureEverythingRecon.requestKey e1,
               CaptureEverythingRecon.ingestRequest e1 (CaptureEverythingRecon.ingestRequest e2
                 (CaptureEverythingRecon.freshEndpoint e1))) :: [] := by
          rw [captureRequest_passes _ e1 h1a h1b, hin2, hkey, hfr]
          simp [lookupA, updateA]
        unfold normCatalog
        rw [hout1, hout2]
        simp only [List.map_cons, List.map_nil]
        rw [normEp_ingest_comm e1 e2 hreq (CaptureEverythingRecon.freshEndpoint e1)]


/-- C5 witness for the amended theorem: two exchanges with different keys
feed in either order to the same catalog up to order. -/
theorem C5_order_invariance_up_to_order_witness :
    normCatalog (CaptureEverythingRecon.captureRequest
        (CaptureEverythingRecon.captureRequest emptyCapture (c5Ev "r1")) c5EvB)
      = normCatalog (CaptureEverythingRecon.captureRequest
          (CaptureEverythingRecon.captureRequest emptyCapture c5EvB) (c5Ev "r1")) :=
  C5_order_invariance_up_to_order (c5Ev "r1") c5EvB (Or.inl (by decide))
